import Mathlib

/-!
Verification of the Ocean-Navy-Bot decoding pipeline.

This file shallowly embeds the core pipeline of the repository: payload
normalization (src/core/normalizer.ts), protocol-specific swap decoding
(src/dex/univ2.ts, src/dex/univ3.ts, src/dex/balancer.ts), transfer-based
buyer attribution (src/core/transfer-matcher.ts), reorg-aware deduplication
(src/core/dedupe.ts over src/utils/set.ts, an lru-cache with max size and
ttl), buy classification (src/core/classifier.ts with src/utils/bigint.ts),
and the webhook entry point (src/providers/webhook.ts).

Modelling conventions:
- JavaScript strings are Lean String; bigint is Int; JS numbers that hold
  log indexes and block numbers are modelled as Option Int with none
  standing for NaN; JS floating point display magnitudes are modelled as
  exact rationals.
- ABI decoding (the viem decodeEventLog calls) is modelled by giving each
  log a structured payload standing for the event arguments carried by the
  topics and data bytes; a decode succeeds exactly when the first topic is
  the matching event signature and the payload carries the matching
  argument record, and fails (returns none, the catch branch of the
  source) otherwise.
-/

/-! ## JavaScript value basics -/

/-- ASCII lowercase of one character, as String.prototype.toLowerCase acts
on the hex-address alphabet used throughout the sources. -/
def lowerChar (c : Char) : Char :=
  if 'A' ≤ c ∧ c ≤ 'Z' then Char.ofNat (c.toNat + 32) else c

/-- Model of String.prototype.toLowerCase for the address strings the code
compares (ASCII): lowercase every character. -/
def toLower (s : String) : String := ⟨s.data.map lowerChar⟩

/-- A JS number holding a log index or block number: none is NaN. -/
abbrev JsNum := Option Int

/-- Template-literal rendering of a JS number (integral values print with
no decimal point; NaN prints as the three letters). -/
def jsNumToString : JsNum → String
  | none => "NaN"
  | some i => toString i

/-- Template-literal rendering of a possibly undefined JS string. -/
def jsStrToString : Option String → String
  | none => "undefined"
  | some s => s

/-- Strict JS comparison a > b on two numbers; any comparison with NaN is
false. -/
def jsGtNum : JsNum → JsNum → Bool
  | some a, some b => decide (b < a)
  | _, _ => false

/-- An untyped JS field that may hold a string, a number or be absent. -/
inductive JVal
  | str (s : String)
  | num (n : Int)
  | absent
deriving DecidableEq, Repr

/-- JS truthiness of such a field (empty string, zero, undefined are
falsy). -/
def JVal.truthy : JVal → Bool
  | .str s => s ≠ ""
  | .num n => n ≠ 0
  | .absent => false

def isHexDigitChar (c : Char) : Bool :=
  ('0' ≤ c ∧ c ≤ '9') ∨ ('a' ≤ c ∧ c ≤ 'f') ∨ ('A' ≤ c ∧ c ≤ 'F')

def hexDigitVal (c : Char) : Nat :=
  if c ≤ '9' then c.toNat - '0'.toNat
  else if c ≤ 'F' then c.toNat - 'A'.toNat + 10
  else c.toNat - 'a'.toNat + 10

/-- Model of the JS builtin parseInt(s, 16): skip leading whitespace, an
optional sign, an optional 0x or 0X prefix, then read the longest prefix
of hex digits; no digits yields NaN. -/
def jsParseInt16 (s : String) : JsNum :=
  let cs := s.data.dropWhile (fun c => c = ' ' ∨ c = '\t' ∨ c = '\n' ∨ c = '\r')
  let signed : Bool × List Char :=
    match cs with
    | '-' :: rest => (true, rest)
    | '+' :: rest => (false, rest)
    | _ => (false, cs)
  let body : List Char :=
    match signed.2 with
    | '0' :: 'x' :: rest => rest
    | '0' :: 'X' :: rest => rest
    | _ => signed.2
  let digits := body.takeWhile isHexDigitChar
  if digits.isEmpty then none
  else
    let v : Nat := digits.foldl (fun acc c => acc * 16 + hexDigitVal c) 0
    some (if signed.1 then -(v : Int) else (v : Int))

/-- JS a || b for two possibly undefined strings (the empty string is
falsy and falls through). -/
def jsOrStr (a b : Option String) : Option String :=
  match a with
  | some s => if s = "" then b else some s
  | none => b

/-! ## Data model (src/core/types.ts and src/config/pools.ts) -/

/-- Decoded argument record of a Uniswap v2 Swap event. The uint256
amounts decode to nonnegative bigints. -/
structure UniV2SwapArgs where
  sender : String
  amount0In : Int
  amount1In : Int
  amount0Out : Int
  amount1Out : Int
  toAddr : String
deriving DecidableEq, Repr

/-- Decoded argument record of a Uniswap v3 Swap event; the two int256
deltas are signed. -/
structure UniV3SwapArgs where
  sender : String
  recipient : String
  amount0 : Int
  amount1 : Int
deriving DecidableEq, Repr

/-- Decoded argument record of a Balancer v2 vault Swap event. -/
structure BalancerSwapArgs where
  poolId : String
  tokenIn : String
  tokenOut : String
  amountIn : Int
  amountOut : Int
deriving DecidableEq, Repr

/-- Decoded argument record of an ERC20 Transfer event. -/
structure TransferArgs where
  fromAddr : String
  toAddr : String
  value : Int
deriving DecidableEq, Repr

/-- Structured stand-in for the topics/data bytes of a log: the argument
record the ABI decoding of those bytes would yield, or an unrecognized
payload. -/
inductive LogData
  | univ2 (a : UniV2SwapArgs)
  | univ3 (a : UniV3SwapArgs)
  | balancer (a : BalancerSwapArgs)
  | transfer (a : TransferArgs)
  | rawData (s : String)
deriving DecidableEq, Repr

/-- Canonical log record produced by the normalizer (DexLog in
src/core/types.ts). transactionHash and logIndex may be absent or NaN at
runtime when the provider omits them, so they are Option valued here. -/
structure DexLog where
  address : String
  topics : List String
  data : LogData
  transactionHash : Option String
  transactionFrom : Option String
  logIndex : JsNum
  blockNumber : JsNum
  removed : Bool
deriving DecidableEq, Repr

/-- Canonical swap event (SwapEvent in src/core/types.ts). -/
structure SwapEvent where
  dex : String
  chainId : Nat
  chainName : String
  poolLabel : String
  transactionHash : Option String
  logIndex : JsNum
  blockNumber : JsNum
  oceanAmount : Int
  isBuy : Bool
  buyerAddress : Option String
  removed : Bool
deriving DecidableEq, Repr

/-- Terminal alert record (BuyAlert in src/core/types.ts). -/
structure BuyAlert where
  oceanAmount : Int
  oceanFormatted : String
  chainName : String
  dex : String
  poolLabel : String
  txHash : Option String
  txUrl : String
  buyerAddress : Option String := none
  buyerShort : Option String := none
  usdValue : Option String := none
  isNewHolder : Option Bool := none
  previousBalance : Option String := none
  newBalance : Option String := none
deriving DecidableEq, Repr

/-- Pool descriptor (the Pool union of src/config/pools.ts). -/
inductive Pool
  | univ2 (chainId : Nat) (chainName : String) (address : String)
      (token0 : String) (token1 : String) (label : String)
  | univ3 (chainId : Nat) (chainName : String) (address : String)
      (token0 : String) (token1 : String) (fee : Nat) (label : String)
  | balancer (chainId : Nat) (chainName : String) (poolId : String)
      (address : String) (tokens : List String) (label : String)
deriving DecidableEq, Repr

def Pool.address : Pool → String
  | .univ2 _ _ a _ _ _ => a
  | .univ3 _ _ a _ _ _ _ => a
  | .balancer _ _ _ a _ _ => a

def Pool.chainId : Pool → Nat
  | .univ2 c _ _ _ _ _ => c
  | .univ3 c _ _ _ _ _ _ => c
  | .balancer c _ _ _ _ _ => c

/-- KNOWN_POOLS of src/config/pools.ts, verbatim. -/
def KNOWN_POOLS : List Pool := [
  .univ2 1 "Ethereum" "0x9b7dad79fc16106b47a3dab791f389c167e15eb0"
    "0x967da4048cd07ab37855c090aaf366e4ce1b9f48"
    "0xc02aaa39b223fe8d0a0e5c4f27ead9083c756cc2"
    "Uniswap v2 OCEAN/WETH",
  .univ3 1 "Ethereum" "0x283e2e83b7f3e297c4b7c02114ab0196b001a109"
    "0x967da4048cd07ab37855c090aaf366e4ce1b9f48"
    "0xc02aaa39b223fe8d0a0e5c4f27ead9083c756cc2" 3000
    "Uniswap v3 OCEAN/WETH 0.3%",
  .univ3 1 "Ethereum" "0x98785fda382725d2d6b5022bf78b30eeaefdc387"
    "0x967da4048cd07ab37855c090aaf366e4ce1b9f48"
    "0xdac17f958d2ee523a2206206994597c13d831ec7" 3000
    "Uniswap v3 OCEAN/USDT 0.3%",
  .balancer 1 "Ethereum"
    "0xf8c4cd95c7496cb7c8d97202cf7e5b8da2204c2b000200000000000000000000"
    "0xf8c4cd95c7496cb7c8d97202cf7e5b8da2204c2b"
    ["0x967da4048cd07ab37855c090aaf366e4ce1b9f48"]
    "Balancer v2 psdnOCEAN/OCEAN",
  .univ2 137 "Polygon" "0x5a94f81d25c73eddbdd84b84e8f6d36c58270510"
    "0x0d500b1d8e8ef31e21c99d1db9a6444d3adf1270"
    "0x282d8efce846a88b159800bd4130ad77443fa1a1"
    "QuickSwap OCEAN/WMATIC"]

/-- getPoolByAddress of src/config/pools.ts. -/
def getPoolByAddress (address : String) : Option Pool :=
  KNOWN_POOLS.find? (fun p => toLower p.address = toLower address)

/-- OCEAN_TOKEN.address of src/config/constants.ts is the OCEAN_ADDRESS
environment variable, lowercased. The deployed value is the mainnet OCEAN
token address, which the repository itself pins in
OCEAN_TOKEN_BY_CHAIN[1] (src/config/constants.ts) and in the OCEAN
constant of src/services/top-buyers.ts; the environment value is modelled
as that constant. -/
def OCEAN_TOKEN_ADDRESS : String := "0x967da4048cd07ab37855c090aaf366e4ce1b9f48"

/-- OCEAN_TOKEN_BY_CHAIN of src/config/constants.ts (address field). -/
def OCEAN_TOKEN_BY_CHAIN (chainId : Nat) : Option String :=
  if chainId = 1 then some "0x967da4048cd07ab37855c090aaf366e4ce1b9f48"
  else if chainId = 137 then some "0x282d8efce846a88b159800bd4130ad77443fa1a1"
  else none

def UNISWAP_V2_SWAP_TOPIC : String :=
  "0xd78ad95fa46c994b6551d0da85fc275fe613ce37657fb8d5e3d130840159d822"

def UNISWAP_V3_SWAP_TOPIC : String :=
  "0xc42079f94a6350d7e6235f29174924f928cc2ac818eb64fed8004e115fbcca67"

def BALANCER_SWAP_TOPIC : String :=
  "0x2170c741c41531aec20e7c107c24eecfdd15e69c9bb0a8dd37b1840b9e0b207b"

def TRANSFER_TOPIC : String :=
  "0xddf252ad1be2c89b69c2b068fc378daa952ba7f163c4a11628f55a4df523b3ef"

/-- BLOCK_EXPLORERS and getExplorerUrl of src/config/constants.ts. -/
def getExplorerUrl (chainId : Nat) (txHash : String) : String :=
  if chainId = 1 then "https://etherscan.io/tx/" ++ txHash
  else if chainId = 137 then "https://polygonscan.com/tx/" ++ txHash
  else if chainId = 10 then "https://optimistic.etherscan.io/tx/" ++ txHash
  else if chainId = 56 then "https://bscscan.com/tx/" ++ txHash
  else if chainId = 1285 then "https://moonriver.moonscan.io/tx/" ++ txHash
  else if chainId = 246 then "https://explorer.energyweb.org/tx/" ++ txHash
  else if chainId = 23294 then "https://explorer.sapphire.oasis.io/tx/" ++ txHash
  else "https://etherscan.io/tx/" ++ txHash

/-! ## Dedupe guard (src/utils/set.ts over lru-cache, src/core/dedupe.ts)

The lru-cache state is the list of live entries, most recently set first,
each carrying the timestamp of its last set. set moves or inserts the key
at the front and, on overflow of max, evicts the least recently used
entry at the back; has answers presence of a non-stale entry (an entry is
stale once now - start exceeds the ttl) without refreshing recency;
delete removes the key. -/

structure DedupeSet where
  maxSize : Nat
  ttl : Nat
  entries : List (String × Nat)
deriving DecidableEq, Repr

/-- The entry update performed by lru-cache set. -/
def setEntry (entries : List (String × Nat)) (key : String) (now max : Nat) :
    List (String × Nat) :=
  ((key, now) :: entries.filter (fun e => e.1 ≠ key)).take max

def DedupeSet.has (s : DedupeSet) (key : String) (now : Nat) : Bool :=
  s.entries.any (fun e => e.1 = key ∧ now - e.2 ≤ s.ttl)

def DedupeSet.add (s : DedupeSet) (key : String) (now : Nat) : DedupeSet :=
  { s with entries := setEntry s.entries key now s.maxSize }

def DedupeSet.del (s : DedupeSet) (key : String) : DedupeSet :=
  { s with entries := s.entries.filter (fun e => e.1 ≠ key) }

/-- DedupeManager of src/core/dedupe.ts: a DedupeSet with max size 2000
and ttl 7200000 ms. -/
structure DedupeManager where
  seen : DedupeSet
deriving DecidableEq, Repr

def DedupeManager.new : DedupeManager := ⟨⟨2000, 7200000, []⟩⟩

/-- makeKey: the template literal txHash ++ ":" ++ logIndex, rendering
runtime undefined and NaN the way JS string interpolation does. -/
def makeKey (txHash : Option String) (logIndex : JsNum) : String :=
  jsStrToString txHash ++ ":" ++ jsNumToString logIndex

def DedupeManager.isDuplicate (m : DedupeManager) (txHash : Option String)
    (logIndex : JsNum) (now : Nat) : Bool :=
  m.seen.has (makeKey txHash logIndex) now

def DedupeManager.markSeen (m : DedupeManager) (txHash : Option String)
    (logIndex : JsNum) (now : Nat) : DedupeManager :=
  ⟨m.seen.add (makeKey txHash logIndex) now⟩

def DedupeManager.handleReorg (m : DedupeManager) (txHash : Option String)
    (logIndex : JsNum) : DedupeManager :=
  ⟨m.seen.del (makeKey txHash logIndex)⟩

/-- One call against the dedupe guard, for stating temporal properties. -/
inductive DedupeOp
  | mark (txHash : Option String) (logIndex : JsNum) (time : Nat)
  | reorg (txHash : Option String) (logIndex : JsNum)
deriving DecidableEq, Repr

def DedupeOp.key : DedupeOp → String
  | .mark t i _ => makeKey t i
  | .reorg t i => makeKey t i

def DedupeOp.isMark : DedupeOp → Bool
  | .mark _ _ _ => true
  | .reorg _ _ => false

def applyOp (m : DedupeManager) : DedupeOp → DedupeManager
  | .mark t i time => m.markSeen t i time
  | .reorg t i => m.handleReorg t i

def runOps (m : DedupeManager) (ops : List DedupeOp) : DedupeManager :=
  ops.foldl applyOp m

/-! ## bigint utilities (src/utils/bigint.ts) -/

/-- The thousands-separator regex replace of formatOcean, on the digit
strings it is applied to: a comma before every group of three digits
counted from the right. -/
def insertCommasRev : List Char → Nat → List Char
  | [], _ => []
  | c :: cs, n =>
    if n % 3 = 0 ∧ n ≠ 0 then ',' :: c :: insertCommasRev cs (n + 1)
    else c :: insertCommasRev cs (n + 1)

def groupThousands (s : String) : String :=
  ⟨(insertCommasRev s.data.reverse 0).reverse⟩

def padStartZeros (s : String) (n : Nat) : String :=
  if n ≤ s.length then s else ⟨List.replicate (n - s.length) '0'⟩ ++ s

/-- formatOcean of src/utils/bigint.ts. The bigint / and % operators
truncate toward zero, as Int.tdiv and Int.tmod do. -/
def formatOcean (amount : Int) (decimals : Nat := 18) : String :=
  let divisor : Int := 10 ^ decimals
  let whole := Int.tdiv amount divisor
  let remainder := Int.tmod amount divisor
  let fractional := padStartZeros (toString remainder) decimals
  let trimmedFractional : String := ⟨fractional.data.take 2⟩
  let wholeStr := groupThousands (toString whole)
  if trimmedFractional = "00" ∨ trimmedFractional = "" then wholeStr
  else wholeStr ++ "." ++ trimmedFractional

/-- oceanToNumber of src/utils/bigint.ts: the floating display magnitude,
modelled as an exact rational. -/
def oceanToNumber (amount : Int) (decimals : Nat := 18) : ℚ :=
  let divisor : Int := 10 ^ decimals
  let whole : ℚ := (Int.tdiv amount divisor : Int)
  let remainder : ℚ := (Int.tmod amount divisor : Int)
  whole + remainder / (divisor : ℚ)

/-! ## Payload normalizer (src/core/normalizer.ts) -/

/-- The from field of a raw transaction object: absent, a plain string
address, or an object with an address field. -/
inductive FromVal
  | absent
  | addrStr (s : String)
  | addrObj (address : String)
deriving DecidableEq, Repr

structure RawTx where
  hash : Option String
  fromField : FromVal
deriving DecidableEq, Repr

/-- One raw provider log entry, covering the fields the normalizer
probes. -/
structure RawLog where
  address : Option String
  accountAddress : Option String
  topics : Option (List String)
  topic0 : Option String
  topic1 : Option String
  topic2 : Option String
  topic3 : Option String
  data : LogData
  transactionHash : Option String
  transaction : Option RawTx
  logIndex : JVal
  index : JVal
  blockNumber : JVal
  removed : Bool
deriving DecidableEq, Repr

structure RawBlock where
  number : JVal
  logs : Option (List RawLog)
deriving DecidableEq, Repr

structure PayloadEventData where
  block : Option RawBlock
deriving DecidableEq, Repr

structure PayloadEventObj where
  data : Option PayloadEventData
deriving DecidableEq, Repr

structure PayloadTx where
  logs : Option (List RawLog)
deriving DecidableEq, Repr

/-- A webhook body, covering the three provider shapes the normalizer
probes. -/
structure Payload where
  logs : Option (List RawLog)
  txs : Option (List PayloadTx)
  event : Option PayloadEventObj
deriving DecidableEq, Repr

/-- payload.logs or payload.txs[0].logs or payload.event.data.block.logs
or the empty array. A present array is truthy in JS even when empty, so
the first present alternative wins. -/
def payloadLogs (p : Payload) : List RawLog :=
  match p.logs with
  | some ls => ls
  | none =>
    match (p.txs.bind (fun ts => ts.head?)).bind (fun t => t.logs) with
    | some ls => ls
    | none => (((p.event.bind (fun e => e.data)).bind
        (fun d => d.block)).bind (fun b => b.logs)).getD []

/-- payload.event.data.block.number, the parent block number used by the
GraphQL shape. -/
def alchemyBlockNumber (p : Payload) : JVal :=
  match (p.event.bind (fun e => e.data)).bind (fun d => d.block) with
  | some b => b.number
  | none => .absent

/-- Topic reconstruction: a present topics array is used as is; otherwise
with a truthy topic0 the four scalar fields are collected, dropping
null or missing entries; otherwise the empty array. -/
def normTopics (l : RawLog) : List String :=
  match l.topics with
  | some ts => ts
  | none =>
    match l.topic0 with
    | some t0 =>
      if t0 = "" then []
      else [some t0, l.topic1, l.topic2, l.topic3].filterMap id
    | none => []

/-- Address normalization: log.address, else log.account.address, else
the empty string; lowercased. -/
def normAddress (l : RawLog) : String :=
  toLower ((jsOrStr l.address l.accountAddress).getD "")

/-- transactionHash: log.transactionHash or log.transaction.hash. -/
def normTxHash (l : RawLog) : Option String :=
  jsOrStr l.transactionHash (l.transaction.bind (fun tx => tx.hash))

/-- transactionFrom: (log.transaction.from.address or log.transaction.from
or the empty string), lowercased, with an empty result turned back into
undefined. -/
def normTransactionFrom (l : RawLog) : Option String :=
  match l.transaction with
  | none => none
  | some tx =>
    match tx.fromField with
    | .absent => none
    | .addrStr s => if toLower s = "" then none else some (toLower s)
    | .addrObj a => if toLower a = "" then none else some (toLower a)

/-- logIndex: a string logIndex is parsed with radix 16; any other
logIndex value falls back to index, which is used as is when it is a
number and otherwise parsed with radix 16 after defaulting a falsy value
to the string 0. -/
def normLogIndex (l : RawLog) : JsNum :=
  match l.logIndex with
  | .str s => jsParseInt16 s
  | _ =>
    match l.index with
    | .num n => some n
    | .str s => jsParseInt16 (if s = "" then "0" else s)
    | .absent => jsParseInt16 "0"

/-- blockNumber: the per-log field, replaced by the parent block number
when falsy and the parent value is truthy; then a string is parsed with
radix 16, a number is used as is, and anything else becomes 0. -/
def normBlockNumber (l : RawLog) (abn : JVal) : JsNum :=
  let bn := if l.blockNumber.truthy = false ∧ abn.truthy then abn
            else l.blockNumber
  match bn with
  | .str s => jsParseInt16 s
  | .num n => some n
  | .absent => some 0

def normalizeOne (abn : JVal) (l : RawLog) : DexLog :=
  { address := normAddress l
    topics := normTopics l
    data := l.data
    transactionHash := normTxHash l
    transactionFrom := normTransactionFrom l
    logIndex := normLogIndex l
    blockNumber := normBlockNumber l abn
    removed := l.removed }

/-- normalizeLogs of src/core/normalizer.ts. The try/catch wrapper never
fires in the model since every modelled probe is total. -/
def normalizeLogs (p : Payload) : List DexLog :=
  (payloadLogs p).map (normalizeOne (alchemyBlockNumber p))

/-! ## Swap decoders (src/dex/univ2.ts, src/dex/univ3.ts,
src/dex/balancer.ts) -/

/-- viem decodeEventLog against the Uniswap v2 pool ABI: succeeds with
Swap arguments exactly when the first topic is the Swap signature and the
payload carries them. -/
def decodeUniV2EventLog (log : DexLog) : Option UniV2SwapArgs :=
  match log.topics.head?, log.data with
  | some t, .univ2 a => if t = UNISWAP_V2_SWAP_TOPIC then some a else none
  | _, _ => none

def decodeUniV3EventLog (log : DexLog) : Option UniV3SwapArgs :=
  match log.topics.head?, log.data with
  | some t, .univ3 a => if t = UNISWAP_V3_SWAP_TOPIC then some a else none
  | _, _ => none

def decodeBalancerEventLog (log : DexLog) : Option BalancerSwapArgs :=
  match log.topics.head?, log.data with
  | some t, .balancer a => if t = BALANCER_SWAP_TOPIC then some a else none
  | _, _ => none

def decodeTransferEventLog (log : DexLog) : Option TransferArgs :=
  match log.topics.head?, log.data with
  | some t, .transfer a => if t = TRANSFER_TOPIC then some a else none
  | _, _ => none

/-- decodeUniswapV2Swap of src/dex/univ2.ts. -/
def decodeUniswapV2Swap (log : DexLog) : Option SwapEvent :=
  match getPoolByAddress log.address with
  | some (.univ2 chainId chainName _ token0 _ label) =>
    match decodeUniV2EventLog log with
    | some args =>
      let oceanIsToken0 := toLower token0 = OCEAN_TOKEN_ADDRESS
      let oceanOut := if oceanIsToken0 then args.amount0Out else args.amount1Out
      let oceanIn := if oceanIsToken0 then args.amount0In else args.amount1In
      let isBuy := decide (0 < oceanOut)
      let oceanAmount := if isBuy then oceanOut else oceanIn
      some { dex := "uniswap-v2", chainId := chainId, chainName := chainName
             poolLabel := label, transactionHash := log.transactionHash
             logIndex := log.logIndex, blockNumber := log.blockNumber
             oceanAmount := oceanAmount, isBuy := isBuy
             buyerAddress := if isBuy then some (toLower args.toAddr) else none
             removed := log.removed }
    | none => none
  | _ => none

/-- decodeUniswapV3Swap of src/dex/univ3.ts. -/
def decodeUniswapV3Swap (log : DexLog) : Option SwapEvent :=
  match getPoolByAddress log.address with
  | some (.univ3 chainId chainName _ token0 _ _ label) =>
    match decodeUniV3EventLog log with
    | some args =>
      let oceanIsToken0 := toLower token0 = OCEAN_TOKEN_ADDRESS
      let oceanAmount := if oceanIsToken0 then args.amount0 else args.amount1
      let isBuy := decide (oceanAmount < 0)
      let absOceanAmount := if oceanAmount < 0 then -oceanAmount else oceanAmount
      some { dex := "uniswap-v3", chainId := chainId, chainName := chainName
             poolLabel := label, transactionHash := log.transactionHash
             logIndex := log.logIndex, blockNumber := log.blockNumber
             oceanAmount := absOceanAmount, isBuy := isBuy
             buyerAddress := if isBuy then some (toLower args.recipient) else none
             removed := log.removed }
    | none => none
  | _ => none

/-- decodeBalancerV2Swap of src/dex/balancer.ts: the pool is found by
pool identifier among the balancer entries of KNOWN_POOLS, and a swap
whose tokenOut is not the monitored token is discarded. -/
def decodeBalancerV2Swap (log : DexLog) : Option SwapEvent :=
  match decodeBalancerEventLog log with
  | some args =>
    match KNOWN_POOLS.find? (fun p =>
      match p with
      | .balancer _ _ poolId _ _ _ => toLower poolId = toLower args.poolId
      | _ => false) with
    | some (.balancer chainId chainName _ _ _ label) =>
      let isBuy := decide (toLower args.tokenOut = OCEAN_TOKEN_ADDRESS)
      if isBuy then
        some { dex := "balancer-v2", chainId := chainId, chainName := chainName
               poolLabel := label, transactionHash := log.transactionHash
               logIndex := log.logIndex, blockNumber := log.blockNumber
               oceanAmount := args.amountOut, isBuy := isBuy
               buyerAddress := log.transactionFrom
               removed := log.removed }
      else none
    | _ => none
  | none => none

/-! ## Transfer correlator (src/core/transfer-matcher.ts) -/

structure TransferEvent where
  transactionHash : Option String
  fromAddr : String
  toAddr : String
  value : Int
  logIndex : JsNum
deriving DecidableEq, Repr

/-- extractTransferEvents: the Transfer events of the monitored token on
the given chain, with addresses lowercased. -/
def extractTransferEvents (logs : List DexLog) (chainId : Nat) :
    List TransferEvent :=
  match OCEAN_TOKEN_BY_CHAIN chainId with
  | none => []
  | some oceanAddr =>
    logs.filterMap (fun log =>
      if log.address = toLower oceanAddr ∧ log.topics.head? = some TRANSFER_TOPIC
      then
        match decodeTransferEventLog log with
        | some a => some { transactionHash := log.transactionHash
                           fromAddr := toLower a.fromAddr
                           toAddr := toLower a.toAddr
                           value := a.value
                           logIndex := log.logIndex }
        | none => none
      else none)

/-- The head of the stable descending sort by logIndex used by strategy 2
of findOceanRecipient: the first element in list order among those with
the greatest logIndex. -/
def lastByLogIndex (ts : List TransferEvent) : Option TransferEvent :=
  ts.foldl (fun acc t =>
    match acc with
    | none => some t
    | some best => if jsGtNum t.logIndex best.logIndex then some t else acc)
    none

/-- findOceanRecipient of src/core/transfer-matcher.ts. -/
def findOceanRecipient (swapTxHash : Option String) (swapLogIndex : JsNum)
    (transferEvents : List TransferEvent) (poolAddress : String) :
    Option String :=
  let txTransfers := transferEvents.filter
    (fun t => t.transactionHash = swapTxHash)
  if txTransfers.isEmpty then none
  else
    match txTransfers.find? (fun t =>
        t.fromAddr = toLower poolAddress ∧ jsGtNum t.logIndex swapLogIndex) with
    | some t => some t.toAddr
    | none =>
      match lastByLogIndex (txTransfers.filter
          (fun t => jsGtNum t.logIndex swapLogIndex)) with
      | some t => some t.toAddr
      | none =>
        match txTransfers.find? (fun t => jsGtNum t.logIndex swapLogIndex) with
        | some t => some t.toAddr
        | none => none

/-! ## Batch decoder (src/core/decoder.ts) -/

/-- The chain ids of the pools present in the batch, in first-seen order
(a JS Set iterates in insertion order). -/
def batchChainIds (logs : List DexLog) : List Nat :=
  logs.foldl (fun acc log =>
    match getPoolByAddress log.address with
    | some p => if p.chainId ∈ acc then acc else acc ++ [p.chainId]
    | none => acc) []

/-- Attaches the correlated recipient to a decoded event when one is
found; a falsy (empty) recipient leaves the event unchanged. -/
def attachRecipient (allTransfers : List TransferEvent) (poolAddr : String)
    (event : SwapEvent) : SwapEvent :=
  match findOceanRecipient event.transactionHash event.logIndex
      allTransfers poolAddr with
  | some r => if r = "" then event else { event with buyerAddress := some r }
  | none => event

/-- decodeLogs of src/core/decoder.ts. -/
def decodeLogs (logs : List DexLog) : List SwapEvent :=
  let allTransfers :=
    (batchChainIds logs).flatMap (fun cid => extractTransferEvents logs cid)
  logs.foldl (fun events log =>
    let topic := log.topics.head?.map toLower
    let pool := getPoolByAddress log.address
    if topic = some (toLower UNISWAP_V2_SWAP_TOPIC) then
      match decodeUniswapV2Swap log, pool with
      | some event, some p =>
        events ++ [attachRecipient allTransfers p.address event]
      | _, _ => events
    else if topic = some (toLower UNISWAP_V3_SWAP_TOPIC) then
      match decodeUniswapV3Swap log, pool with
      | some event, some p =>
        events ++ [attachRecipient allTransfers p.address event]
      | _, _ => events
    else if topic = some (toLower BALANCER_SWAP_TOPIC) then
      match decodeBalancerV2Swap log, pool with
      | some event, some p =>
        events ++ [attachRecipient allTransfers p.address event]
      | _, _ => events
    else events) []

/-! ## Buy classifier (src/core/classifier.ts, src/services/price.ts,
src/services/balance.ts) -/

/-- Wallet status returned by the balance oracle
(BalanceService.getWalletStatus), or none on an unsupported chain or an
RPC failure. -/
structure WalletStatus where
  previousBalance : Int
  newBalance : Int
  isNewHolder : Bool
deriving DecidableEq, Repr

/-- The balance oracle, abstracting the RPC calls of
BalanceService.getWalletStatus: wallet address, swap amount, chain id and
block number to a status or none. -/
abbrev WalletOracle := String → Int → Nat → JsNum → Option WalletStatus

/-- Fixed two-decimal en-US rendering with thousands separators, as
toLocaleString produces for the currency and balance strings; the claims
never inspect these strings. -/
def formatFixed2 (v : ℚ) : String :=
  let cents : Int := round (v * 100)
  let sign := if cents < 0 then "-" else ""
  let n := cents.natAbs
  sign ++ groupThousands (toString (n / 100)) ++ "." ++
    padStartZeros (toString (n % 100)) 2

/-- PriceService.formatUsdValue: null price gives null, otherwise the
en-US currency rendering of amount times price. -/
def formatUsdValue (oceanAmount : ℚ) (price : Option ℚ) : Option String :=
  match price with
  | none => none
  | some p => some ("$" ++ formatFixed2 (oceanAmount * p))

/-- BalanceService.shortenAddress. -/
def shortenAddress (a : String) : String :=
  ⟨a.data.take 6⟩ ++ "..." ++ ⟨a.data.drop (a.data.length - 4)⟩

/-- BalanceService.formatBalance: the balance scaled by the token
decimals, rendered with two decimals. -/
def formatBalance (b : Int) : String :=
  formatFixed2 ((b : ℚ) / (10 ^ 18 : ℚ))

/-- The alert record built for one retained event by the classifier loop,
given the already fetched price and the balance oracle. -/
def buildAlert (oceanPrice : Option ℚ) (oracle : WalletOracle)
    (event : SwapEvent) : BuyAlert :=
  let amount := oceanToNumber event.oceanAmount
  let base : BuyAlert :=
    { oceanAmount := event.oceanAmount
      oceanFormatted := formatOcean event.oceanAmount
      chainName := event.chainName
      dex := event.dex
      poolLabel := event.poolLabel
      txHash := event.transactionHash
      txUrl := getExplorerUrl event.chainId (jsStrToString event.transactionHash) }
  let withUsd :=
    match oceanPrice with
    | some p =>
      match formatUsdValue amount (some p) with
      | some s => { base with usdValue := some s }
      | none => base
    | none => base
  match event.buyerAddress with
  | none => withUsd
  | some b =>
    if b = "" then withUsd
    else
      let withBuyer := { withUsd with
        buyerAddress := some b,
        buyerShort := some (shortenAddress b) }
      match oracle b event.oceanAmount event.chainId event.blockNumber with
      | some ws => { withBuyer with
          isNewHolder := some ws.isNewHolder,
          previousBalance := some (formatBalance ws.previousBalance),
          newBalance := some (formatBalance ws.newBalance) }
      | none => withBuyer

/-- classifyBuys of src/core/classifier.ts: the price is fetched once for
the batch (here a parameter, none when the price oracle fails); events
that are not buys or whose display magnitude is below the threshold are
skipped; the rest produce alerts in order. -/
def classifyBuys (events : List SwapEvent) (minOceanAlert : ℚ)
    (oceanPrice : Option ℚ) (oracle : WalletOracle) : List BuyAlert :=
  events.foldl (fun buys event =>
    if !event.isBuy then buys
    else if oceanToNumber event.oceanAmount < minOceanAlert then buys
    else buys ++ [buildAlert oceanPrice oracle event]) []

/-! ## Webhook entry point (src/providers/webhook.ts) -/

/-- One iteration of the dedupe filtering loop of handleWebhook: a
removed event evicts its key, a duplicate is dropped, a fresh event is
marked and kept. -/
def dedupeStep (now : Nat) (st : DedupeManager × List SwapEvent)
    (e : SwapEvent) : DedupeManager × List SwapEvent :=
  if e.removed then (st.1.handleReorg e.transactionHash e.logIndex, st.2)
  else if st.1.isDuplicate e.transactionHash e.logIndex now then st
  else (st.1.markSeen e.transactionHash e.logIndex now, st.2 ++ [e])

/-- The dedupe filtering loop of handleWebhook. -/
def processEvents (m : DedupeManager) (events : List SwapEvent) (now : Nat) :
    DedupeManager × List SwapEvent :=
  events.foldl (dedupeStep now) (m, [])

/-- handleWebhook of src/providers/webhook.ts as a state transition on
the dedupe manager, returning the alerts handed to the notifier. The
minimum threshold, price lookup and balance oracle are the environment
and external services. -/
def handleWebhook (m : DedupeManager) (p : Payload) (now : Nat)
    (minOceanAlert : ℚ) (oceanPrice : Option ℚ) (oracle : WalletOracle) :
    DedupeManager × List BuyAlert :=
  let logs := normalizeLogs p
  if logs.isEmpty then (m, [])
  else
    let events := decodeLogs logs
    let st := processEvents m events now
    (st.1, classifyBuys st.2 minOceanAlert oceanPrice oracle)

/-! ## Shared constants and helpers for the claims -/

def uniV2EthPoolAddress : String := "0x9b7dad79fc16106b47a3dab791f389c167e15eb0"

def uniV3EthWethPoolAddress : String := "0x283e2e83b7f3e297c4b7c02114ab0196b001a109"

def uniV3EthUsdtPoolAddress : String := "0x98785fda382725d2d6b5022bf78b30eeaefdc387"

def balancerEthPoolId : String :=
  "0xf8c4cd95c7496cb7c8d97202cf7e5b8da2204c2b000200000000000000000000"

/-- A balance oracle that always fails (unsupported chain or RPC error). -/
def noneOracle : WalletOracle := fun _ _ _ _ => none

/-- A canonical log carrying a Uniswap v2 Swap on the registered Ethereum
OCEAN/WETH pool. -/
def mkV2Log (args : UniV2SwapArgs) (txh tf : Option String)
    (li bn : JsNum) (rm : Bool) : DexLog :=
  { address := uniV2EthPoolAddress
    topics := [UNISWAP_V2_SWAP_TOPIC]
    data := .univ2 args
    transactionHash := txh
    transactionFrom := tf
    logIndex := li
    blockNumber := bn
    removed := rm }

/-- A canonical log carrying a Uniswap v3 Swap on a given pool address. -/
def mkV3Log (addr : String) (args : UniV3SwapArgs) (txh tf : Option String)
    (li bn : JsNum) (rm : Bool) : DexLog :=
  { address := addr
    topics := [UNISWAP_V3_SWAP_TOPIC]
    data := .univ3 args
    transactionHash := txh
    transactionFrom := tf
    logIndex := li
    blockNumber := bn
    removed := rm }

/-- A canonical log carrying a Balancer v2 vault Swap. -/
def mkBalLog (addr : String) (args : BalancerSwapArgs) (txh tf : Option String)
    (li bn : JsNum) (rm : Bool) : DexLog :=
  { address := addr
    topics := [BALANCER_SWAP_TOPIC]
    data := .balancer args
    transactionHash := txh
    transactionFrom := tf
    logIndex := li
    blockNumber := bn
    removed := rm }

/-! ## Concrete fixtures and proof-support definitions for the claims -/

/-- A one-event batch: a purchase of the given raw magnitude. -/
def mkBuyEvent (amount : Int) : SwapEvent :=
  { dex := "uniswap-v2", chainId := 1, chainName := "Ethereum"
    poolLabel := "Uniswap v2 OCEAN/WETH", transactionHash := some "0xtest"
    logIndex := some 1, blockNumber := some 2, oceanAmount := amount
    isBuy := true, buyerAddress := none, removed := false }

/-- A raw log whose logIndex field is the native number 5 and whose index
field is absent. -/
def c8Log : RawLog :=
  { address := some "0xaa", accountAddress := none, topics := some []
    topic0 := none, topic1 := none, topic2 := none, topic3 := none
    data := .rawData "", transactionHash := some "0xt", transaction := none
    logIndex := .num 5, index := .absent, blockNumber := .num 1
    removed := false }

/-- Marking a list of keys in order against the cache entry list. -/
def markAll (ks : List String) (s : List (String × Nat)) (t max : Nat) :
    List (String × Nat) :=
  ks.foldl (fun acc a => setEntry acc a t max) s

/-- 2000 pairwise distinct transaction hashes, none of them the length-one
hash used for the observed key. -/
def c1OtherTxs : List String :=
  (List.range 2000).map (fun i => String.mk (List.replicate (i + 3) 'a'))

def c1Keys : List String :=
  c1OtherTxs.map (fun tx => makeKey (some tx) (some 0))

/-- The dedupe manager after marking the observed key and then 2000
distinct other keys, all at time 0. -/
def c1Manager : DedupeManager :=
  c1OtherTxs.foldl (fun m tx => m.markSeen (some tx) (some 0) 0)
    (DedupeManager.new.markSeen (some "t") (some 7) 0)

/-- The fixed capacity and ttl of the manager survive every operation. -/
def goodDims (m : DedupeManager) : Prop :=
  m.seen.maxSize = 2000 ∧ m.seen.ttl = 7200000

/-- A qualifying Uniswap v2 buy of 2 whole tokens on the registered
Ethereum pool. -/
def c7Args : UniV2SwapArgs :=
  { sender := "0xrout", amount0In := 0, amount1In := 10 ^ 18
    amount0Out := 2 * 10 ^ 18, amount1Out := 0, toAddr := "0xABCD" }

/-- A raw webhook log carrying that swap. -/
def c7LogA : RawLog :=
  { address := some "0x9b7dad79fc16106b47a3dab791f389c167e15eb0"
    accountAddress := none, topics := some [UNISWAP_V2_SWAP_TOPIC]
    topic0 := none, topic1 := none, topic2 := none, topic3 := none
    data := .univ2 c7Args, transactionHash := some "0xt1"
    transaction := none, logIndex := .str "3", index := .absent
    blockNumber := .num 100, removed := false }

/-- The same log redelivered with the removed (reorg) flag set. -/
def c7LogB : RawLog := { c7LogA with removed := true }

/-- A payload holding the swap and its reorged duplicate. -/
def c7Payload : Payload :=
  { logs := some [c7LogA, c7LogB], txs := none, event := none }

/-! ## C2: Uniswap v2 decoder, monitored token is token0 -/

/-- C2: for a constant-product swap log on the registered pool whose
token0 is the monitored token, a strictly positive amount0Out decodes to
a purchase of magnitude amount0Out, and a zero amount0Out decodes to a
non-purchase of magnitude amount0In. -/
theorem c2_univ2_decoder_token0 (args : UniV2SwapArgs) (txh tf : Option String)
    (li bn : JsNum) (rm : Bool) :
    (0 < args.amount0Out →
      decodeUniswapV2Swap (mkV2Log args txh tf li bn rm)
      = some { dex := "uniswap-v2", chainId := 1, chainName := "Ethereum"
               poolLabel := "Uniswap v2 OCEAN/WETH", transactionHash := txh
               logIndex := li, blockNumber := bn
               oceanAmount := args.amount0Out
               isBuy := true, buyerAddress := some (toLower args.toAddr)
               removed := rm })
    ∧ (args.amount0Out = 0 →
      decodeUniswapV2Swap (mkV2Log args txh tf li bn rm)
      = some { dex := "uniswap-v2", chainId := 1, chainName := "Ethereum"
               poolLabel := "Uniswap v2 OCEAN/WETH", transactionHash := txh
               logIndex := li, blockNumber := bn
               oceanAmount := args.amount0In
               isBuy := false, buyerAddress := none
               removed := rm }) := by
  have hpool : getPoolByAddress uniV2EthPoolAddress
      = some (.univ2 1 "Ethereum" "0x9b7dad79fc16106b47a3dab791f389c167e15eb0"
          "0x967da4048cd07ab37855c090aaf366e4ce1b9f48"
          "0xc02aaa39b223fe8d0a0e5c4f27ead9083c756cc2"
          "Uniswap v2 OCEAN/WETH") := rfl
  have htok : toLower "0x967da4048cd07ab37855c090aaf366e4ce1b9f48"
      = OCEAN_TOKEN_ADDRESS := rfl
  constructor
  · intro h
    simp only [decodeUniswapV2Swap, mkV2Log, decodeUniV2EventLog]
    rw [hpool]
    simp [htok, h]
  · intro h
    simp only [decodeUniswapV2Swap, mkV2Log, decodeUniV2EventLog]
    rw [hpool]
    simp [htok, h]

/-- Witness for C2 at amount0Out = 5 (purchase) and amount0Out = 0 with
amount0In = 7 (non-purchase). -/
theorem c2_univ2_decoder_token0_witness :
    (0 < (5 : Int)) ∧
    decodeUniswapV2Swap (mkV2Log ⟨"0xs", 0, 9, 5, 0, "0xABC"⟩
        (some "0xt") none (some 1) (some 2) false)
      = some { dex := "uniswap-v2", chainId := 1, chainName := "Ethereum"
               poolLabel := "Uniswap v2 OCEAN/WETH", transactionHash := some "0xt"
               logIndex := some 1, blockNumber := some 2, oceanAmount := 5
               isBuy := true, buyerAddress := some (toLower "0xABC")
               removed := false } ∧
    decodeUniswapV2Swap (mkV2Log ⟨"0xs", 7, 0, 0, 4, "0xABC"⟩
        (some "0xt") none (some 1) (some 2) false)
      = some { dex := "uniswap-v2", chainId := 1, chainName := "Ethereum"
               poolLabel := "Uniswap v2 OCEAN/WETH", transactionHash := some "0xt"
               logIndex := some 1, blockNumber := some 2, oceanAmount := 7
               isBuy := false, buyerAddress := none
               removed := false } :=
  ⟨by decide,
   (c2_univ2_decoder_token0 ⟨"0xs", 0, 9, 5, 0, "0xABC"⟩
      (some "0xt") none (some 1) (some 2) false).1 (by decide),
   (c2_univ2_decoder_token0 ⟨"0xs", 7, 0, 0, 4, "0xABC"⟩
      (some "0xt") none (some 1) (some 2) false).2 rfl⟩

/-! ## C3: Uniswap v3 decoder -/

/-- C3: for a concentrated-liquidity swap log on a registered pool (both
registered pools carry the monitored token as token0, so its signed delta
is amount0), the decoded event moves the absolute value of that delta and
is a purchase exactly when the delta is strictly negative. -/
theorem c3_univ3_decoder (addr : String) (args : UniV3SwapArgs)
    (txh tf : Option String) (li bn : JsNum) (rm : Bool)
    (haddr : addr = uniV3EthWethPoolAddress ∨ addr = uniV3EthUsdtPoolAddress) :
    ∃ ev, decodeUniswapV3Swap (mkV3Log addr args txh tf li bn rm) = some ev
      ∧ ev.oceanAmount = |args.amount0|
      ∧ (ev.isBuy = true ↔ args.amount0 < 0) := by
  have htok : toLower "0x967da4048cd07ab37855c090aaf366e4ce1b9f48"
      = OCEAN_TOKEN_ADDRESS := rfl
  have habs : (if args.amount0 < 0 then -args.amount0 else args.amount0)
      = |args.amount0| := by
    rcases lt_or_le args.amount0 0 with h | h
    · simp [h, abs_of_neg h]
    · simp [not_lt.mpr h, abs_of_nonneg h]
  rcases haddr with h | h <;> subst h
  · have hpool : getPoolByAddress uniV3EthWethPoolAddress
        = some (.univ3 1 "Ethereum" "0x283e2e83b7f3e297c4b7c02114ab0196b001a109"
            "0x967da4048cd07ab37855c090aaf366e4ce1b9f48"
            "0xc02aaa39b223fe8d0a0e5c4f27ead9083c756cc2" 3000
            "Uniswap v3 OCEAN/WETH 0.3%") := rfl
    refine ⟨{ dex := "uniswap-v3", chainId := 1, chainName := "Ethereum"
              poolLabel := "Uniswap v3 OCEAN/WETH 0.3%", transactionHash := txh
              logIndex := li, blockNumber := bn
              oceanAmount := if args.amount0 < 0 then -args.amount0 else args.amount0
              isBuy := decide (args.amount0 < 0)
              buyerAddress := if decide (args.amount0 < 0) = true then
                some (toLower args.recipient) else none
              removed := rm }, ?_, ?_, ?_⟩
    · simp only [decodeUniswapV3Swap, mkV3Log, decodeUniV3EventLog]
      rw [hpool]
      simp [htok]
    · simpa using habs
    · simp [decide_eq_true_iff]
  · have hpool : getPoolByAddress uniV3EthUsdtPoolAddress
        = some (.univ3 1 "Ethereum" "0x98785fda382725d2d6b5022bf78b30eeaefdc387"
            "0x967da4048cd07ab37855c090aaf366e4ce1b9f48"
            "0xdac17f958d2ee523a2206206994597c13d831ec7" 3000
            "Uniswap v3 OCEAN/USDT 0.3%") := rfl
    refine ⟨{ dex := "uniswap-v3", chainId := 1, chainName := "Ethereum"
              poolLabel := "Uniswap v3 OCEAN/USDT 0.3%", transactionHash := txh
              logIndex := li, blockNumber := bn
              oceanAmount := if args.amount0 < 0 then -args.amount0 else args.amount0
              isBuy := decide (args.amount0 < 0)
              buyerAddress := if decide (args.amount0 < 0) = true then
                some (toLower args.recipient) else none
              removed := rm }, ?_, ?_, ?_⟩
    · simp only [decodeUniswapV3Swap, mkV3Log, decodeUniV3EventLog]
      rw [hpool]
      simp [htok]
    · simpa using habs
    · simp [decide_eq_true_iff]

/-- Witness for C3 on the OCEAN/WETH pool with delta -5: a purchase of
magnitude 5. -/
theorem c3_univ3_decoder_witness :
    (uniV3EthWethPoolAddress = uniV3EthWethPoolAddress ∨
      uniV3EthWethPoolAddress = uniV3EthUsdtPoolAddress) ∧
    ∃ ev, decodeUniswapV3Swap (mkV3Log uniV3EthWethPoolAddress
        ⟨"0xs", "0xRcp", -5, 9⟩ (some "0xt") none (some 1) (some 2) false)
        = some ev
      ∧ ev.oceanAmount = |(-5 : Int)|
      ∧ (ev.isBuy = true ↔ (-5 : Int) < 0) :=
  ⟨Or.inl rfl,
   c3_univ3_decoder uniV3EthWethPoolAddress ⟨"0xs", "0xRcp", -5, 9⟩
     (some "0xt") none (some 1) (some 2) false (Or.inl rfl)⟩

/-! ## C4: Balancer v2 decoder -/

/-- Inversion for the modelled Balancer decodeEventLog. -/
theorem decodeBalancerEventLog_inv {log : DexLog} {args : BalancerSwapArgs}
    (h : decodeBalancerEventLog log = some args) :
    log.data = .balancer args ∧ log.topics.head? = some BALANCER_SWAP_TOPIC := by
  unfold decodeBalancerEventLog at h
  rcases ht : log.topics.head? with _ | t <;> rw [ht] at h
  · rcases log.data <;> simp at h
  · rcases hd : log.data <;> rw [hd] at h <;> try simp at h
    rcases em (t = BALANCER_SWAP_TOPIC) with he | he
    · simp [he] at h
      simp [hd, h, he]
    · simp [he] at h

/-- C4: a vault swap whose pool identifier matches the registered vault
pool and whose tokenOut is the monitored token decodes to a purchase of
magnitude amountOut attributed to the transaction sender; and every event
the Balancer decoder returns is a purchase whose tokenOut is the
monitored token. -/
theorem c4_balancer_decoder :
    (∀ (addr : String) (args : BalancerSwapArgs) (txh tf : Option String)
        (li bn : JsNum) (rm : Bool),
      toLower args.poolId = balancerEthPoolId →
      toLower args.tokenOut = OCEAN_TOKEN_ADDRESS →
      decodeBalancerV2Swap (mkBalLog addr args txh tf li bn rm)
        = some { dex := "balancer-v2", chainId := 1, chainName := "Ethereum"
                 poolLabel := "Balancer v2 psdnOCEAN/OCEAN"
                 transactionHash := txh, logIndex := li, blockNumber := bn
                 oceanAmount := args.amountOut, isBuy := true
                 buyerAddress := tf, removed := rm })
    ∧ (∀ (log : DexLog) (ev : SwapEvent),
        decodeBalancerV2Swap log = some ev →
        ev.isBuy = true ∧
        ∃ args, log.data = .balancer args ∧
          toLower args.tokenOut = OCEAN_TOKEN_ADDRESS) := by
  constructor
  · intro addr args txh tf li bn rm hpid htok
    have hfind : KNOWN_POOLS.find? (fun p =>
        match p with
        | .balancer _ _ poolId _ _ _ => toLower poolId = toLower args.poolId
        | _ => false)
        = some (.balancer 1 "Ethereum" balancerEthPoolId
            "0xf8c4cd95c7496cb7c8d97202cf7e5b8da2204c2b"
            ["0x967da4048cd07ab37855c090aaf366e4ce1b9f48"]
            "Balancer v2 psdnOCEAN/OCEAN") := by
      have : toLower args.poolId = balancerEthPoolId := hpid
      simp only [KNOWN_POOLS, List.find?]
      rw [this]
      rfl
    have hdec : decodeBalancerEventLog (mkBalLog addr args txh tf li bn rm)
        = some args := rfl
    unfold decodeBalancerV2Swap
    simp only [hdec]
    rw [hfind]
    simp [htok, mkBalLog]
  · intro log ev h
    unfold decodeBalancerV2Swap at h
    rcases hd : decodeBalancerEventLog log with _ | args
    · rw [hd] at h
      simp at h
    · rcases decodeBalancerEventLog_inv hd with ⟨hdata, _⟩
      simp only [hd] at h
      rcases hf : KNOWN_POOLS.find? (fun p =>
          match p with
          | .balancer _ _ poolId _ _ _ => toLower poolId = toLower args.poolId
          | _ => false) with _ | pool
      · simp only [hf] at h
        exact Option.noConfusion h
      · rcases pool with ⟨_⟩ | ⟨_⟩ | ⟨chainId, chainName, poolId, paddr, tokens, label⟩ <;>
          simp only [hf] at h
        · exact Option.noConfusion h
        · exact Option.noConfusion h
        · rcases em (toLower args.tokenOut = OCEAN_TOKEN_ADDRESS) with he | he
          · have hdt : decide (toLower args.tokenOut = OCEAN_TOKEN_ADDRESS) = true :=
              decide_eq_true he
            rw [hdt, if_pos rfl] at h
            cases Option.some.inj h
            exact ⟨rfl, args, hdata, he⟩
          · simp [he] at h

/-- Witness for C4 at a concrete vault swap with tokenOut the monitored
token and amountOut 11. -/
theorem c4_balancer_decoder_witness :
    (toLower
      "0xF8C4cd95c7496cb7c8d97202cf7e5b8da2204c2b000200000000000000000000"
      = balancerEthPoolId) ∧
    decodeBalancerV2Swap (mkBalLog "0xba12222222228d8ba445958a75a0704d566bf2c8"
        ⟨"0xF8C4cd95c7496cb7c8d97202cf7e5b8da2204c2b000200000000000000000000",
         "0xc02aaa39b223fe8d0a0e5c4f27ead9083c756cc2",
         "0x967da4048cd07ab37855c090aaf366e4ce1b9f48", 3, 11⟩
        (some "0xt") (some "0xsender") (some 4) (some 9) false)
      = some { dex := "balancer-v2", chainId := 1, chainName := "Ethereum"
               poolLabel := "Balancer v2 psdnOCEAN/OCEAN"
               transactionHash := some "0xt", logIndex := some 4
               blockNumber := some 9, oceanAmount := 11, isBuy := true
               buyerAddress := some "0xsender", removed := false } :=
  ⟨by decide,
   c4_balancer_decoder.1 "0xba12222222228d8ba445958a75a0704d566bf2c8"
     ⟨"0xF8C4cd95c7496cb7c8d97202cf7e5b8da2204c2b000200000000000000000000",
      "0xc02aaa39b223fe8d0a0e5c4f27ead9083c756cc2",
      "0x967da4048cd07ab37855c090aaf366e4ce1b9f48", 3, 11⟩
     (some "0xt") (some "0xsender") (some 4) (some 9) false
     (by decide) (by decide)⟩

/-! ## C5: transfer correlator, pool transfer priority -/

/-- C5: whenever some transfer of the batch lives in the swap transaction,
is sent by the pool address and sits after the swap log index, the
correlator returns the recipient of such a transfer (strategy 1 fires
before the later strategies, which would also accept transfers not sent
by the pool). -/
theorem c5_pool_transfer_priority (swapTx : Option String) (L : JsNum)
    (transfers : List TransferEvent) (pool : String) (t : TransferEvent)
    (ht : t ∈ transfers) (htx : t.transactionHash = swapTx)
    (hfrom : t.fromAddr = toLower pool) (hgt : jsGtNum t.logIndex L = true) :
    ∃ t2, t2 ∈ transfers ∧ t2.transactionHash = swapTx
      ∧ t2.fromAddr = toLower pool ∧ jsGtNum t2.logIndex L = true
      ∧ findOceanRecipient swapTx L transfers pool = some t2.toAddr := by
  have htmem : t ∈ transfers.filter (fun x => x.transactionHash = swapTx) :=
    List.mem_filter.mpr ⟨ht, by simp [htx]⟩
  have hsome : ((transfers.filter (fun x => x.transactionHash = swapTx)).find?
      (fun x => x.fromAddr = toLower pool ∧ jsGtNum x.logIndex L)).isSome := by
    rw [List.find?_isSome]
    exact ⟨t, htmem, by simp [hfrom, hgt]⟩
  rcases hfind : (transfers.filter (fun x => x.transactionHash = swapTx)).find?
      (fun x => x.fromAddr = toLower pool ∧ jsGtNum x.logIndex L) with _ | t2
  · rw [hfind] at hsome
    simp at hsome
  · have ht2mem := List.mem_of_find?_eq_some hfind
    have ht2p := List.find?_some hfind
    have hne : (transfers.filter
        (fun x => x.transactionHash = swapTx)).isEmpty = false := by
      rcases hq : transfers.filter (fun x => x.transactionHash = swapTx)
          with _ | ⟨a, l⟩
      · rw [hq] at htmem
        exact absurd htmem (List.not_mem_nil t)
      · rw [hq]
        rfl
    refine ⟨t2, (List.mem_filter.mp ht2mem).1,
      of_decide_eq_true (List.mem_filter.mp ht2mem).2,
      (of_decide_eq_true ht2p).1, (of_decide_eq_true ht2p).2, ?_⟩
    unfold findOceanRecipient
    simp only [hne, if_false, Bool.false_eq_true, hfind]

/-- Witness for C5: a pool transfer at index 5 wins over a non-pool
transfer at the higher index 9. -/
theorem c5_pool_transfer_priority_witness :
    ∃ t2, t2 ∈ [TransferEvent.mk (some "0xt") "0xaggregator" "0xrouter" 3 (some 9),
                TransferEvent.mk (some "0xt") "0xpool" "0xwallet" 3 (some 5)]
      ∧ t2.transactionHash = some "0xt"
      ∧ t2.fromAddr = toLower "0xPOOL"
      ∧ jsGtNum t2.logIndex (some 2) = true
      ∧ findOceanRecipient (some "0xt") (some 2)
          [TransferEvent.mk (some "0xt") "0xaggregator" "0xrouter" 3 (some 9),
           TransferEvent.mk (some "0xt") "0xpool" "0xwallet" 3 (some 5)]
          "0xPOOL" = some t2.toAddr :=
  c5_pool_transfer_priority (some "0xt") (some 2)
    [TransferEvent.mk (some "0xt") "0xaggregator" "0xrouter" 3 (some 9),
     TransferEvent.mk (some "0xt") "0xpool" "0xwallet" 3 (some 5)]
    "0xPOOL" (TransferEvent.mk (some "0xt") "0xpool" "0xwallet" 3 (some 5))
    (by decide) (by decide) (by decide) (by decide)

/-! ## C6 and C9: buy classifier -/

/-- The classifier loop, over any accumulator, equals the accumulator
followed by the alerts of the retained events: exactly the buys whose
display magnitude reaches the threshold. -/
theorem classifyBuys_foldl (events : List SwapEvent) (minA : ℚ)
    (price : Option ℚ) (oracle : WalletOracle) (acc : List BuyAlert) :
    events.foldl (fun buys event =>
      if !event.isBuy then buys
      else if oceanToNumber event.oceanAmount < minA then buys
      else buys ++ [buildAlert price oracle event]) acc
    = acc ++ (events.filter (fun e =>
        e.isBuy && decide (minA ≤ oceanToNumber e.oceanAmount))).map
        (buildAlert price oracle) := by
  induction events generalizing acc with
  | nil => simp
  | cons e es ih =>
    simp only [List.foldl_cons, List.filter_cons]
    by_cases hb : e.isBuy
    · have h1 : (!e.isBuy) = false := by simp [hb]
      rw [h1, if_neg Bool.false_ne_true]
      by_cases hlt : oceanToNumber e.oceanAmount < minA
      · have h2 : (e.isBuy && decide (minA ≤ oceanToNumber e.oceanAmount))
            = false := by simp [not_le.mpr hlt]
        rw [if_pos hlt, h2, if_neg Bool.false_ne_true]
        exact ih acc
      · have h2 : (e.isBuy && decide (minA ≤ oceanToNumber e.oceanAmount))
            = true := by simp [hb, not_lt.mp hlt]
        rw [if_neg hlt, h2, if_pos rfl, List.map_cons, ih, List.append_assoc]
        rfl
    · have h0 : e.isBuy = false := Bool.eq_false_iff.mpr hb
      have h1 : (!e.isBuy) = true := by simp [h0]
      have h2 : (e.isBuy && decide (minA ≤ oceanToNumber e.oceanAmount))
          = false := by simp [h0]
      rw [h1, if_pos rfl, h2, if_neg Bool.false_ne_true]
      exact ih acc

/-- classifyBuys as a filter and map. -/
theorem classifyBuys_eq (events : List SwapEvent) (minA : ℚ)
    (price : Option ℚ) (oracle : WalletOracle) :
    classifyBuys events minA price oracle
    = (events.filter (fun e =>
        e.isBuy && decide (minA ≤ oceanToNumber e.oceanAmount))).map
        (buildAlert price oracle) := by
  unfold classifyBuys
  simpa using classifyBuys_foldl events minA price oracle []

/-- With a failed price lookup the built alert carries no USD value. -/
theorem buildAlert_usdValue_none (oracle : WalletOracle) (e : SwapEvent) :
    (buildAlert none oracle e).usdValue = none := by
  unfold buildAlert
  cases e.buyerAddress with
  | none => rfl
  | some b =>
    by_cases hb : b = ""
    · simp [hb]
    · rcases ho : oracle b e.oceanAmount e.chainId e.blockNumber with _ | ws <;>
        simp [hb, ho]

/-- With a failed balance oracle the built alert carries no balance or
new-holder fields. -/
theorem buildAlert_wallet_none (price : Option ℚ) (e : SwapEvent) :
    (buildAlert price noneOracle e).isNewHolder = none
    ∧ (buildAlert price noneOracle e).previousBalance = none
    ∧ (buildAlert price noneOracle e).newBalance = none := by
  unfold buildAlert
  cases price with
  | none =>
    cases e.buyerAddress with
    | none => exact ⟨rfl, rfl, rfl⟩
    | some b =>
      by_cases hb : b = "" <;> simp [hb, noneOracle]
  | some p =>
    cases e.buyerAddress with
    | none => simp [formatUsdValue]
    | some b =>
      by_cases hb : b = "" <;> simp [hb, noneOracle, formatUsdValue]

unseal Rat.add Rat.mul Rat.inv in
/-- C6: the classifier keeps exactly the purchase events whose display
magnitude is at least the threshold (dropping those strictly below); at
threshold 1 a display magnitude of 0.999 is dropped and exactly 1 is
kept. -/
theorem c6_classifier_threshold :
    (∀ (events : List SwapEvent) (minA : ℚ) (price : Option ℚ)
        (oracle : WalletOracle),
      classifyBuys events minA price oracle
        = (events.filter (fun e =>
            e.isBuy && decide (minA ≤ oceanToNumber e.oceanAmount))).map
            (buildAlert price oracle))
    ∧ classifyBuys [mkBuyEvent (999 * 10 ^ 15)] 1 none noneOracle = []
    ∧ classifyBuys [mkBuyEvent (10 ^ 18)] 1 none noneOracle
        = [buildAlert none noneOracle (mkBuyEvent (10 ^ 18))] :=
  ⟨classifyBuys_eq, by decide, by decide⟩

/-- C9: the number of alerts does not depend on the price or the balance
oracle, a failed price lookup only omits the USD value, and a failed
balance oracle only omits the balance and new-holder fields; no
enrichment failure drops an alert. -/
theorem c9_enrichment_failure_never_drops :
    (∀ (events : List SwapEvent) (minA : ℚ) (price : Option ℚ)
        (oracle : WalletOracle),
      (classifyBuys events minA price oracle).length
        = (events.filter (fun e =>
            e.isBuy && decide (minA ≤ oceanToNumber e.oceanAmount))).length)
    ∧ (∀ (events : List SwapEvent) (minA : ℚ) (oracle : WalletOracle)
        (a : BuyAlert), a ∈ classifyBuys events minA none oracle →
        a.usdValue = none)
    ∧ (∀ (events : List SwapEvent) (minA : ℚ) (price : Option ℚ)
        (a : BuyAlert), a ∈ classifyBuys events minA price noneOracle →
        a.isNewHolder = none ∧ a.previousBalance = none ∧ a.newBalance = none) := by
  refine ⟨?_, ?_, ?_⟩
  · intro events minA price oracle
    rw [classifyBuys_eq, List.length_map]
  · intro events minA oracle a ha
    rw [classifyBuys_eq] at ha
    rcases List.mem_map.mp ha with ⟨e, _, rfl⟩
    exact buildAlert_usdValue_none oracle e
  · intro events minA price a ha
    rw [classifyBuys_eq] at ha
    rcases List.mem_map.mp ha with ⟨e, _, rfl⟩
    exact buildAlert_wallet_none price e

unseal Rat.add Rat.mul Rat.inv in
/-- Witness for C9: a qualifying one-event batch with both oracles
failing still yields its alert, with the optional fields absent. -/
theorem c9_enrichment_failure_witness :
    (buildAlert none noneOracle (mkBuyEvent (10 ^ 18))
        ∈ classifyBuys [mkBuyEvent (10 ^ 18)] 1 none noneOracle)
    ∧ (buildAlert none noneOracle (mkBuyEvent (10 ^ 18))).usdValue = none
    ∧ (buildAlert none noneOracle (mkBuyEvent (10 ^ 18))).isNewHolder = none :=
  ⟨by decide,
   c9_enrichment_failure_never_drops.2.1 [mkBuyEvent (10 ^ 18)] 1 noneOracle
     (buildAlert none noneOracle (mkBuyEvent (10 ^ 18))) (by decide),
   (c9_enrichment_failure_never_drops.2.2 [mkBuyEvent (10 ^ 18)] 1 none
     (buildAlert none noneOracle (mkBuyEvent (10 ^ 18))) (by decide)).1⟩

/-! ## C8: normalizer log-index handling (claim corrected) and C10 -/

/-- Counterexample to C8: a native-number logIndex of 5 is not emitted as
5; the normalizer ignores it, falls back to the absent index field and
emits 0. -/
theorem c8_counterexample :
    (normalizeLogs { logs := some [c8Log], txs := none, event := none }).map
        (fun d => d.logIndex) = [some 0]
    ∧ (some (5 : Int) : JsNum) ≠ some 0 :=
  ⟨by decide, by decide⟩

/-- C8 amended: the emitted logIndex is the radix-16 parse of a string
logIndex (so decimal strings are read as hex digits); any non-string
logIndex, including a native number, is ignored in favor of the index
field, which is emitted as is when it is a native number, parsed with
radix 16 when it is a string (the empty string defaulting to 0), and
taken as 0 when absent. -/
theorem c8_amended_logindex (l : RawLog) :
    ((normalizeLogs { logs := some [l], txs := none, event := none }).map
        (fun d => d.logIndex) = [normLogIndex l])
    ∧ (∀ s, l.logIndex = .str s → normLogIndex l = jsParseInt16 s)
    ∧ ((l.logIndex = .absent ∨ ∃ n, l.logIndex = .num n) →
        (∀ n, l.index = .num n → normLogIndex l = some n)
        ∧ (∀ s, l.index = .str s →
            normLogIndex l = jsParseInt16 (if s = "" then "0" else s))
        ∧ (l.index = .absent → normLogIndex l = some 0)) := by
  refine ⟨rfl, ?_, ?_⟩
  · intro s h
    unfold normLogIndex
    rw [h]
  · intro hli
    have hcase : ∀ r : JsNum,
        (match l.index with
          | .num n => some n
          | .str s => jsParseInt16 (if s = "" then "0" else s)
          | .absent => jsParseInt16 "0") = r → normLogIndex l = r := by
      intro r hr
      unfold normLogIndex
      rcases hli with h | ⟨n, h⟩ <;> rw [h] <;> exact hr
    refine ⟨?_, ?_, ?_⟩
    · intro n h
      exact hcase (some n) (by rw [h])
    · intro s h
      exact hcase (jsParseInt16 (if s = "" then "0" else s)) (by rw [h])
    · intro h
      exact hcase (some 0) (by rw [h]; rfl)

/-- Witness for C8 amended: a hex-string logIndex 0x1a parses to 26, and
a native-number logIndex 5 with native-number index 7 emits 7. -/
theorem c8_amended_logindex_witness :
    (({ c8Log with logIndex := .str "0x1a" } : RawLog).logIndex = .str "0x1a" →
      normLogIndex { c8Log with logIndex := .str "0x1a" }
        = jsParseInt16 "0x1a")
    ∧ normLogIndex { c8Log with logIndex := .str "0x1a" } = some 26
    ∧ (({ c8Log with index := .num 7 } : RawLog).logIndex = .absent ∨
        ∃ n, ({ c8Log with index := .num 7 } : RawLog).logIndex = .num n)
    ∧ normLogIndex { c8Log with index := .num 7 } = some 7 :=
  ⟨fun h => (c8_amended_logindex { c8Log with logIndex := .str "0x1a" }).2.1
      "0x1a" h,
   by decide,
   Or.inr ⟨5, rfl⟩,
   ((c8_amended_logindex { c8Log with index := .num 7 }).2.2
      (Or.inr ⟨5, rfl⟩)).1 7 rfl⟩

/-- C10: in the per-transaction shape the normalizer reads only the first
transaction log array; all later transactions are dropped. -/
theorem c10_first_tx_only (t1 : PayloadTx) (rest : List PayloadTx)
    (ls : List RawLog) (h : t1.logs = some ls) :
    normalizeLogs { logs := none, txs := some (t1 :: rest), event := none }
      = ls.map (normalizeOne .absent)
    ∧ normalizeLogs { logs := none, txs := some (t1 :: rest), event := none }
      = normalizeLogs { logs := none, txs := some [t1], event := none } := by
  unfold normalizeLogs payloadLogs alchemyBlockNumber
  simp [h]

/-- Witness for C10: two transactions with one log each; only the first
log survives. -/
theorem c10_first_tx_only_witness :
    ((PayloadTx.mk (some [c8Log]) : PayloadTx).logs = some [c8Log])
    ∧ normalizeLogs
        { logs := none
          txs := some [PayloadTx.mk (some [c8Log]),
                       PayloadTx.mk (some [{ c8Log with address := some "0xbb" }])]
          event := none }
      = [c8Log].map (normalizeOne .absent)
    ∧ (normalizeLogs
        { logs := none
          txs := some [PayloadTx.mk (some [c8Log]),
                       PayloadTx.mk (some [{ c8Log with address := some "0xbb" }])]
          event := none }).length = 1 :=
  ⟨rfl,
   (c10_first_tx_only (PayloadTx.mk (some [c8Log]))
     [PayloadTx.mk (some [{ c8Log with address := some "0xbb" }])]
     [c8Log] rfl).1,
   by decide⟩

/-! ## C1: dedupe guard window (claim corrected by LRU capacity) -/

theorem mem_take_of_le {α : Type} {l : List α} {m n : Nat} (h : m ≤ n)
    {x : α} (hx : x ∈ l.take m) : x ∈ l.take n := by
  have heq : l.take m = (l.take n).take m := by
    rw [List.take_take, Nat.min_eq_left h]
  rw [heq] at hx
  exact List.take_subset _ _ hx

/-- Marking nodup fresh keys pushes an existing key ever deeper: after
the marks it cannot sit among the first j plus number-of-marks entries,
while the entry list stays within capacity. -/
theorem markAll_evicts (k : String) (t max : Nat) :
    ∀ (ks : List String) (s : List (String × Nat)) (j : Nat),
      ks.Nodup →
      (∀ a ∈ ks, a ∉ s.map Prod.fst) →
      (∀ a ∈ ks, a ≠ k) →
      k ∉ (s.take j).map Prod.fst →
      s.length ≤ max →
      k ∉ ((markAll ks s t max).take (j + ks.length)).map Prod.fst
      ∧ (markAll ks s t max).length ≤ max
      ∧ (∀ b ∈ (markAll ks s t max).map Prod.fst,
          b ∈ ks ∨ b ∈ s.map Prod.fst) := by
  intro ks
  induction ks with
  | nil =>
    intro s j _ _ _ hk hlen
    exact ⟨by simpa using hk, hlen, fun b hb => Or.inr hb⟩
  | cons a ks ih =>
    intro s j hnd hfresh hnk hk hlen
    have hfa : ∀ e ∈ s, e.1 ≠ a := by
      intro e he heq
      exact (hfresh a (List.mem_cons_self a ks))
        (heq ▸ List.mem_map_of_mem Prod.fst he)
    have hfilter : s.filter (fun e => e.1 ≠ a) = s :=
      List.filter_eq_self.mpr (fun e he => decide_eq_true (hfa e he))
    have hstep : setEntry s a t max = ((a, t) :: s).take max := by
      unfold setEntry
      rw [hfilter]
    have hlen2 : (setEntry s a t max).length ≤ max := by
      rw [hstep]
      exact List.length_take_le _ _
    have hsub2 : ∀ b ∈ (setEntry s a t max).map Prod.fst,
        b = a ∨ b ∈ s.map Prod.fst := by
      intro b hb
      rcases List.mem_map.mp hb with ⟨e, he, rfl⟩
      rw [hstep] at he
      rcases List.mem_cons.mp (List.take_subset _ _ he) with rfl | he'
      · exact Or.inl rfl
      · exact Or.inr (List.mem_map_of_mem Prod.fst he')
    have hfresh2 : ∀ b ∈ ks, b ∉ (setEntry s a t max).map Prod.fst := by
      intro b hb hmem
      rcases hsub2 b hmem with rfl | hmem'
      · exact (List.nodup_cons.mp hnd).1 hb
      · exact hfresh b (List.mem_cons_of_mem a hb) hmem'
    have hk2 : k ∉ ((setEntry s a t max).take (j + 1)).map Prod.fst := by
      intro hmem
      rcases List.mem_map.mp hmem with ⟨e, he, heq⟩
      have he2 : e ∈ ((a, t) :: s).take (j + 1) := by
        rw [hstep, List.take_take] at he
        exact mem_take_of_le (Nat.min_le_left _ _) he
      rw [List.take_succ_cons] at he2
      rcases List.mem_cons.mp he2 with rfl | he3
      · exact hnk a (List.mem_cons_self a ks) heq
      · exact hk (heq ▸ List.mem_map_of_mem Prod.fst he3)
    have hrec := ih (setEntry s a t max) (j + 1) (List.nodup_cons.mp hnd).2
      hfresh2 (fun b hb => hnk b (List.mem_cons_of_mem a hb)) hk2 hlen2
    have hma : markAll (a :: ks) s t max = markAll ks (setEntry s a t max) t max := rfl
    have harith : j + (a :: ks).length = (j + 1) + ks.length := by
      simp [List.length_cons]
      omega
    refine ⟨?_, by rw [hma]; exact hrec.2.1, ?_⟩
    · rw [hma, harith]
      exact hrec.1
    · intro b hb
      rw [hma] at hb
      rcases hrec.2.2 b hb with h1 | h1
      · exact Or.inl (List.mem_cons_of_mem a h1)
      · rcases hsub2 b h1 with hba | h2
        · exact Or.inl (by rw [hba]; exact List.mem_cons_self a ks)
        · exact Or.inr h2

/-- Marking a sequence of keys at the manager level is markAll on the
entry list. -/
theorem foldl_markSeen_eq (txs : List String) (m : DedupeManager) (now : Nat) :
    txs.foldl (fun m tx => m.markSeen (some tx) (some 0) now) m
    = ⟨⟨m.seen.maxSize, m.seen.ttl,
        markAll (txs.map (fun tx => makeKey (some tx) (some 0)))
          m.seen.entries now m.seen.maxSize⟩⟩ := by
  induction txs generalizing m with
  | nil =>
    obtain ⟨⟨mx, tl, es⟩⟩ := m
    rfl
  | cons tx txs ih =>
    rw [List.foldl_cons, ih]
    rfl

theorem c1Key_length (i : Nat) :
    (makeKey (some (String.mk (List.replicate (i + 3) 'a'))) (some 0)).length
      = i + 5 := by
  have hk : makeKey (some (String.mk (List.replicate (i + 3) 'a'))) (some 0)
      = String.mk (List.replicate (i + 3) 'a') ++ ":" ++ toString (0 : Int) := rfl
  rw [hk, String.length_append, String.length_append]
  have h1 : (String.mk (List.replicate (i + 3) 'a')).length = i + 3 := by
    simp [String.length]
  have h2 : (":" : String).length = 1 := rfl
  have h3 : (toString (0 : Int)).length = 1 := by decide
  omega

theorem c1Keys_nodup : c1Keys.Nodup := by
  unfold c1Keys c1OtherTxs
  rw [List.map_map]
  refine List.Nodup.map ?_ (List.nodup_range 2000)
  intro i j hij
  have hlen := congrArg String.length hij
  simp only [Function.comp] at hlen
  rw [c1Key_length, c1Key_length] at hlen
  omega

theorem c1Keys_ne_key (a : String) (ha : a ∈ c1Keys) :
    a ≠ makeKey (some "t") (some 7) := by
  intro heq
  unfold c1Keys c1OtherTxs at ha
  rw [List.map_map] at ha
  rcases List.mem_map.mp ha with ⟨i, _, hfi⟩
  have h1 : a.length = i + 5 := by
    rw [← hfi]
    exact c1Key_length i
  have h2 : (makeKey (some "t") (some 7)).length = 3 := by decide
  rw [heq, h2] at h1
  omega

set_option maxRecDepth 4000 in
/-- Counterexample to C1: immediately after markSeen the key is a
duplicate, but after 2000 distinct other keys are marked seen, still
within the TTL and with no handleReorg, the key has been evicted by the
LRU capacity bound and isDuplicate is false again. -/
theorem c1_counterexample :
    DedupeManager.isDuplicate
      (DedupeManager.new.markSeen (some "t") (some 7) 0) (some "t") (some 7) 0
      = true
    ∧ DedupeManager.isDuplicate c1Manager (some "t") (some 7) 0 = false := by
  refine ⟨by decide, ?_⟩
  have hm : c1Manager = ⟨⟨2000, 7200000,
      markAll c1Keys [(makeKey (some "t") (some 7), 0)] 0 2000⟩⟩ := by
    unfold c1Manager
    rw [foldl_markSeen_eq]
    rfl
  have hfresh : ∀ a ∈ c1Keys,
      a ∉ ([(makeKey (some "t") (some 7), 0)].map Prod.fst) := by
    intro a ha hmem
    simp only [List.map_cons, List.map_nil, List.mem_singleton] at hmem
    exact c1Keys_ne_key a ha hmem
  have hev := markAll_evicts (makeKey (some "t") (some 7)) 0 2000 c1Keys
    [(makeKey (some "t") (some 7), 0)] 0 c1Keys_nodup hfresh c1Keys_ne_key
    (by simp) (by simp)
  have hlenkeys : c1Keys.length = 2000 := by
    unfold c1Keys c1OtherTxs
    simp
  have htake : (markAll c1Keys [(makeKey (some "t") (some 7), 0)] 0 2000).take
      (0 + c1Keys.length) = markAll c1Keys [(makeKey (some "t") (some 7), 0)] 0 2000 := by
    apply List.take_of_length_le
    rw [hlenkeys]
    simpa using hev.2.1
  have hnotin := hev.1
  rw [htake] at hnotin
  have hgoal : ∀ (es : List (String × Nat)),
      (∀ x ∈ es.map Prod.fst, x ≠ makeKey (some "t") (some 7)) →
      DedupeManager.isDuplicate ⟨⟨2000, 7200000, es⟩⟩ (some "t") (some 7) 0
        = false := by
    intro es hx
    unfold DedupeManager.isDuplicate DedupeSet.has
    refine List.any_eq_false.mpr ?_
    intro e he hp
    exact hx e.1 (List.mem_map_of_mem Prod.fst he) (of_decide_eq_true hp).1
  rw [hm]
  apply hgoal
  intro x hxmem hxeq
  rw [hxeq] at hxmem
  exact hnotin hxmem

theorem goodDims_new : goodDims DedupeManager.new := ⟨rfl, rfl⟩

theorem goodDims_applyOp (m : DedupeManager) (op : DedupeOp)
    (h : goodDims m) : goodDims (applyOp m op) := by
  cases op <;> exact h

theorem goodDims_runOps (m : DedupeManager) (ops : List DedupeOp)
    (h : goodDims m) : goodDims (runOps m ops) := by
  induction ops generalizing m with
  | nil => exact h
  | cons op ops ih => exact ih _ (goodDims_applyOp m op h)

theorem goodDims_markSeen (m : DedupeManager) (t : Option String) (i : JsNum)
    (now : Nat) (h : goodDims m) : goodDims (m.markSeen t i now) := h

/-- Presence invariant: a marked key with at most 1999 distinct other
keys ever marked after it stays in the entry list, with only allowed keys
in front of it. -/
theorem runOps_keeps_key (k : String) (t0 : Nat) (allowed : List String)
    (hlenA : allowed.length ≤ 1999) :
    ∀ (ops : List DedupeOp) (m : DedupeManager),
      goodDims m →
      (∀ op ∈ ops, op.key ≠ k) →
      (∀ op ∈ ops, op.isMark = true → op.key ∈ allowed) →
      ∀ (front back : List (String × Nat)),
        m.seen.entries = front ++ (k, t0) :: back →
        (∀ x ∈ front.map Prod.fst, x ∈ allowed) →
        (front.map Prod.fst).Nodup →
        ∃ front2 back2,
          (runOps m ops).seen.entries = front2 ++ (k, t0) :: back2 := by
  intro ops
  induction ops with
  | nil =>
    intro m _ _ _ front back hm _ _
    exact ⟨front, back, hm⟩
  | cons op ops ih =>
    intro m hdim hne hmark front back hm hsub hnd
    have hkey : op.key ≠ k := hne op (List.mem_cons_self op ops)
    have hstep : runOps m (op :: ops) = runOps (applyOp m op) ops := rfl
    rw [hstep]
    cases op with
    | reorg tx idx =>
      have hent : (applyOp m (.reorg tx idx)).seen.entries
          = (front.filter (fun e => e.1 ≠ makeKey tx idx))
            ++ (k, t0) :: (back.filter (fun e => e.1 ≠ makeKey tx idx)) := by
        show (m.seen.entries).filter (fun e => e.1 ≠ makeKey tx idx) = _
        rw [hm, List.filter_append, List.filter_cons]
        have hkd : (decide ¬(k, t0).1 = makeKey tx idx) = true :=
          decide_eq_true (fun h => hkey h.symm)
        simp [hkd]
      refine ih (applyOp m (.reorg tx idx))
        (goodDims_applyOp m _ hdim)
        (fun o ho => hne o (List.mem_cons_of_mem _ ho))
        (fun o ho hmk => hmark o (List.mem_cons_of_mem _ ho) hmk)
        (front.filter (fun e => e.1 ≠ makeKey tx idx))
        (back.filter (fun e => e.1 ≠ makeKey tx idx)) hent ?_ ?_
      · intro x hx
        rcases List.mem_map.mp hx with ⟨e, he, rfl⟩
        exact hsub e.1
          (List.mem_map_of_mem Prod.fst (List.mem_of_mem_filter he))
      · exact List.Nodup.sublist
          (List.Sublist.map Prod.fst (List.filter_sublist front)) hnd
    | mark tx idx tm =>
      have hkeyA : makeKey tx idx ∈ allowed :=
        hmark (.mark tx idx tm) (List.mem_cons_self _ ops) rfl
      -- the filtered front keeps only keys other than the marked one
      have hffil : ∀ e ∈ front.filter (fun e => e.1 ≠ makeKey tx idx),
          e ∈ front := fun e he => List.mem_of_mem_filter he
      -- the new front after the mark
      set front2 := (makeKey tx idx, tm)
        :: front.filter (fun e => e.1 ≠ makeKey tx idx) with hfront2
      have hsub2 : ∀ x ∈ front2.map Prod.fst, x ∈ allowed := by
        intro x hx
        rcases List.mem_cons.mp hx with rfl | hx'
        · exact hkeyA
        · rcases List.mem_map.mp hx' with ⟨e, he, rfl⟩
          exact hsub e.1 (List.mem_map_of_mem Prod.fst (hffil e he))
      have hnd2 : (front2.map Prod.fst).Nodup := by
        rw [hfront2, List.map_cons, List.nodup_cons]
        constructor
        · intro hmem
          rcases List.mem_map.mp hmem with ⟨e, he, heq⟩
          have := of_decide_eq_true (List.mem_filter.mp he).2
          exact this heq
        · exact List.Nodup.sublist
            (List.Sublist.map Prod.fst (List.filter_sublist front)) hnd
      have hlen2 : front2.length ≤ 1999 := by
        have h1 : front2.length = (front2.map Prod.fst).length :=
          (List.length_map front2 Prod.fst).symm
        have h2 : List.Subperm (front2.map Prod.fst) allowed :=
          List.subperm_of_subset hnd2 (fun x hx => hsub2 x hx)
        calc front2.length = (front2.map Prod.fst).length := h1
          _ ≤ allowed.length := h2.length_le
          _ ≤ 1999 := hlenA
      have hent : (applyOp m (.mark tx idx tm)).seen.entries
          = front2 ++ (k, t0) :: (back.filter
              (fun e => e.1 ≠ makeKey tx idx)).take (1999 - front2.length) := by
        have hkd : (decide ¬(k, t0).1 = makeKey tx idx) = true :=
          decide_eq_true (fun h => hkey h.symm)
        have hmid : ((k, t0) :: back).filter (fun e => e.1 ≠ makeKey tx idx)
            = (k, t0) :: back.filter (fun e => e.1 ≠ makeKey tx idx) := by
          rw [List.filter_cons]
          simp [hkd]
        show setEntry m.seen.entries (makeKey tx idx) tm m.seen.maxSize = _
        rw [hdim.1, hm]
        unfold setEntry
        rw [List.filter_append, hmid]
        rw [show ((makeKey tx idx, tm)
              :: (front.filter (fun e => e.1 ≠ makeKey tx idx)
                ++ (k, t0) :: back.filter (fun e => e.1 ≠ makeKey tx idx)))
            = front2 ++ ((k, t0) :: back.filter (fun e => e.1 ≠ makeKey tx idx))
          from rfl]
        rw [List.take_append_eq_append_take]
        have htf : front2.take 2000 = front2 :=
          List.take_of_length_le (by omega)
        have harith : 2000 - front2.length = (1999 - front2.length) + 1 := by
          omega
        rw [htf, harith, List.take_succ_cons]
      exact ih (applyOp m (.mark tx idx tm))
        (goodDims_applyOp m _ hdim)
        (fun o ho => hne o (List.mem_cons_of_mem _ ho))
        (fun o ho hmk => hmark o (List.mem_cons_of_mem _ ho) hmk)
        front2 _ hent hsub2 hnd2

/-- C1 amended: after markSeen(k), isDuplicate(k) stays true at every
later point until the TTL elapses or handleReorg(k) is called, provided
fewer than the cache capacity of 2000 distinct other keys are marked seen
in between; marking 2000 or more distinct other keys can evict k early
through the LRU bound. -/
theorem c1_amended_dedupe_window (txh : Option String) (idx : JsNum)
    (t0 tq : Nat) (pre ops : List DedupeOp)
    (hne : ∀ op ∈ ops, op.key ≠ makeKey txh idx)
    (hcap : ((ops.filter (fun op => op.isMark)).map
        DedupeOp.key).dedup.length ≤ 1999)
    (httl : tq - t0 ≤ 7200000) :
    DedupeManager.isDuplicate
      (runOps ((runOps DedupeManager.new pre).markSeen txh idx t0) ops)
      txh idx tq = true := by
  have hdim0 : goodDims (runOps DedupeManager.new pre) :=
    goodDims_runOps _ _ goodDims_new
  have hdim1 : goodDims ((runOps DedupeManager.new pre).markSeen txh idx t0) :=
    hdim0
  have hent1 : ((runOps DedupeManager.new pre).markSeen txh idx t0).seen.entries
      = [] ++ (makeKey txh idx, t0)
        :: ((runOps DedupeManager.new pre).seen.entries.filter
            (fun e => e.1 ≠ makeKey txh idx)).take 1999 := by
    show setEntry (runOps DedupeManager.new pre).seen.entries
        (makeKey txh idx) t0 (runOps DedupeManager.new pre).seen.maxSize = _
    rw [hdim0.1]
    unfold setEntry
    rw [show (2000 : Nat) = 1999 + 1 from rfl, List.take_succ_cons]
    rfl
  have hmark : ∀ op ∈ ops, op.isMark = true →
      op.key ∈ ((ops.filter (fun op => op.isMark)).map DedupeOp.key).dedup :=
    fun op ho hm => List.mem_dedup.mpr
      (List.mem_map_of_mem DedupeOp.key (List.mem_filter.mpr ⟨ho, hm⟩))
  obtain ⟨front2, back2, hfin⟩ := runOps_keeps_key (makeKey txh idx) t0
    ((ops.filter (fun op => op.isMark)).map DedupeOp.key).dedup hcap ops
    ((runOps DedupeManager.new pre).markSeen txh idx t0) hdim1 hne hmark
    [] _ hent1 (by simp) (by simp)
  have hdimf : goodDims (runOps
      ((runOps DedupeManager.new pre).markSeen txh idx t0) ops) :=
    goodDims_runOps _ _ hdim1
  unfold DedupeManager.isDuplicate DedupeSet.has
  rw [hfin, hdimf.2]
  refine List.any_eq_true.mpr ?_
  exact ⟨(makeKey txh idx, t0), by simp, decide_eq_true ⟨rfl, httl⟩⟩

/-- Witness for C1 amended: one other key marked in between, query at the
mark time. -/
theorem c1_amended_dedupe_window_witness :
    (∀ op ∈ [DedupeOp.mark (some "u") (some 1) 0],
      DedupeOp.key op ≠ makeKey (some "t") (some 7))
    ∧ (([DedupeOp.mark (some "u") (some 1) 0].filter
        (fun op => op.isMark)).map DedupeOp.key).dedup.length ≤ 1999
    ∧ ((0 : Nat) - 0 ≤ 7200000)
    ∧ DedupeManager.isDuplicate
        (runOps ((runOps DedupeManager.new []).markSeen (some "t") (some 7) 0)
          [DedupeOp.mark (some "u") (some 1) 0]) (some "t") (some 7) 0 = true :=
  ⟨by decide, by decide, by decide,
   c1_amended_dedupe_window (some "t") (some 7) 0 0 []
     [DedupeOp.mark (some "u") (some 1) 0] (by decide) (by decide) (by decide)⟩

/-! ## C7: webhook idempotence (claim corrected) -/

/-- A manager whose entries are a key list all stamped at the query time
answers isDuplicate by key membership. -/
theorem ksState_isDuplicate (now : Nat) (ksx : List String)
    (txh : Option String) (idx : JsNum) :
    ((⟨⟨2000, 7200000, ksx.map (fun x => (x, now))⟩⟩ : DedupeManager).isDuplicate
      txh idx now = true)
    ↔ makeKey txh idx ∈ ksx := by
  unfold DedupeManager.isDuplicate DedupeSet.has
  rw [List.any_eq_true]
  constructor
  · rintro ⟨q, hq, hdec⟩
    rcases List.mem_map.mp hq with ⟨x, hx, rfl⟩
    have hh := of_decide_eq_true hdec
    exact hh.1 ▸ hx
  · intro hk
    refine ⟨(makeKey txh idx, now), List.mem_map_of_mem _ hk,
      decide_eq_true ⟨rfl, by omega⟩⟩

theorem dedupeStep_dup (now : Nat) (m : DedupeManager) (acc : List SwapEvent)
    (e : SwapEvent) (h1 : e.removed = false)
    (h2 : m.isDuplicate e.transactionHash e.logIndex now = true) :
    dedupeStep now (m, acc) e = (m, acc) := by
  unfold dedupeStep
  simp [h1, h2]

theorem foldl_dedupeStep_dup (now : Nat) (m : DedupeManager) :
    ∀ (events : List SwapEvent) (acc : List SwapEvent),
      (∀ e ∈ events, e.removed = false ∧
        m.isDuplicate e.transactionHash e.logIndex now = true) →
      events.foldl (dedupeStep now) (m, acc) = (m, acc) := by
  intro events
  induction events with
  | nil => intro acc _; rfl
  | cons e es ih =>
    intro acc h
    rw [List.foldl_cons, dedupeStep_dup now m acc e
      (h e (List.mem_cons_self e es)).1 (h e (List.mem_cons_self e es)).2]
    exact ih acc (fun x hx => h x (List.mem_cons_of_mem e hx))

/-- Running the dedupe loop over never-removed events whose distinct keys
fit within the capacity marks exactly the keys seen, without eviction. -/
theorem processEvents_marks (now : Nat) (allKeys : List String)
    (hlenAll : allKeys.length ≤ 2000) :
    ∀ (events : List SwapEvent) (ks : List String) (acc : List SwapEvent),
      (∀ e ∈ events, e.removed = false) →
      (∀ e ∈ events, makeKey e.transactionHash e.logIndex ∈ allKeys) →
      ks.Nodup → (∀ x ∈ ks, x ∈ allKeys) →
      ∃ ks2 : List String, ks2.Nodup ∧ (∀ x ∈ ks2, x ∈ allKeys)
        ∧ (events.foldl (dedupeStep now)
            (⟨⟨2000, 7200000, ks.map (fun x => (x, now))⟩⟩, acc)).1
          = ⟨⟨2000, 7200000, ks2.map (fun x => (x, now))⟩⟩
        ∧ (∀ e ∈ events, makeKey e.transactionHash e.logIndex ∈ ks2)
        ∧ (∀ x ∈ ks, x ∈ ks2) := by
  intro events
  induction events with
  | nil =>
    intro ks acc _ _ hnd hsub
    exact ⟨ks, hnd, hsub, rfl, by simp, fun x hx => hx⟩
  | cons e es ih =>
    intro ks acc hnr hka hnd hsub
    have hr : e.removed = false := hnr e (List.mem_cons_self e es)
    have hkaAll : makeKey e.transactionHash e.logIndex ∈ allKeys :=
      hka e (List.mem_cons_self e es)
    rw [List.foldl_cons]
    by_cases hdup : makeKey e.transactionHash e.logIndex ∈ ks
    · have hstep : dedupeStep now
          (⟨⟨2000, 7200000, ks.map (fun x => (x, now))⟩⟩, acc) e
          = (⟨⟨2000, 7200000, ks.map (fun x => (x, now))⟩⟩, acc) :=
        dedupeStep_dup now _ acc e hr
          ((ksState_isDuplicate now ks e.transactionHash e.logIndex).mpr hdup)
      rw [hstep]
      obtain ⟨ks2, hnd2, hsub2, hstate, hkeys2, hgrow⟩ := ih ks acc
        (fun x hx => hnr x (List.mem_cons_of_mem e hx))
        (fun x hx => hka x (List.mem_cons_of_mem e hx)) hnd hsub
      refine ⟨ks2, hnd2, hsub2, hstate, ?_, hgrow⟩
      intro x hx
      rcases List.mem_cons.mp hx with rfl | hx'
      · exact hgrow _ hdup
      · exact hkeys2 x hx'
    · have hdupF : (⟨⟨2000, 7200000, ks.map (fun x => (x, now))⟩⟩ :
          DedupeManager).isDuplicate e.transactionHash e.logIndex now
          = false :=
        Bool.eq_false_iff.mpr (fun hval => hdup
          ((ksState_isDuplicate now ks e.transactionHash e.logIndex).mp hval))
      have hfresh : ∀ q ∈ ks.map (fun x => (x, now)),
          Prod.fst q ≠ makeKey e.transactionHash e.logIndex := by
        intro q hq heq
        rcases List.mem_map.mp hq with ⟨x, hx, rfl⟩
        exact hdup (heq ▸ hx)
      have hnd1 : (makeKey e.transactionHash e.logIndex :: ks).Nodup :=
        List.nodup_cons.mpr ⟨hdup, hnd⟩
      have hsub1 : ∀ x ∈ makeKey e.transactionHash e.logIndex :: ks,
          x ∈ allKeys := by
        intro x hx
        rcases List.mem_cons.mp hx with rfl | hx'
        · exact hkaAll
        · exact hsub x hx'
      have hlen1 : (makeKey e.transactionHash e.logIndex :: ks).length ≤ 2000 := by
        have hsp : List.Subperm (makeKey e.transactionHash e.logIndex :: ks)
            allKeys := List.subperm_of_subset hnd1 (fun x hx => hsub1 x hx)
        exact le_trans hsp.length_le hlenAll
      have hmark : (⟨⟨2000, 7200000, ks.map (fun x => (x, now))⟩⟩ :
          DedupeManager).markSeen e.transactionHash e.logIndex now
          = ⟨⟨2000, 7200000, (makeKey e.transactionHash e.logIndex :: ks).map
              (fun x => (x, now))⟩⟩ := by
        show (⟨⟨2000, 7200000, setEntry (ks.map (fun x => (x, now)))
            (makeKey e.transactionHash e.logIndex) now 2000⟩⟩ : DedupeManager)
          = _
        have hfil : (ks.map (fun x => (x, now))).filter
            (fun q => q.1 ≠ makeKey e.transactionHash e.logIndex)
            = ks.map (fun x => (x, now)) :=
          List.filter_eq_self.mpr
            (fun q hq => decide_eq_true (hfresh q hq))
        have htk : ((makeKey e.transactionHash e.logIndex, now)
              :: ks.map (fun x => (x, now))).take 2000
            = (makeKey e.transactionHash e.logIndex, now)
              :: ks.map (fun x => (x, now)) := by
          apply List.take_of_length_le
          have := hlen1
          simp only [List.length_cons, List.length_map] at this ⊢
          omega
        unfold setEntry
        rw [hfil, htk, List.map_cons]
      have hstep : dedupeStep now
          (⟨⟨2000, 7200000, ks.map (fun x => (x, now))⟩⟩, acc) e
          = (⟨⟨2000, 7200000, (makeKey e.transactionHash e.logIndex :: ks).map
              (fun x => (x, now))⟩⟩, acc ++ [e]) := by
        unfold dedupeStep
        rw [hr, hdupF]
        simp only [Bool.false_eq_true, if_false]
        rw [hmark]
      rw [hstep]
      obtain ⟨ks2, hnd2, hsub2, hstate, hkeys2, hgrow⟩ :=
        ih (makeKey e.transactionHash e.logIndex :: ks) (acc ++ [e])
          (fun x hx => hnr x (List.mem_cons_of_mem e hx))
          (fun x hx => hka x (List.mem_cons_of_mem e hx)) hnd1 hsub1
      refine ⟨ks2, hnd2, hsub2, hstate, ?_, ?_⟩
      · intro x hx
        rcases List.mem_cons.mp hx with rfl | hx'
        · exact hgrow _ (List.mem_cons_self _ ks)
        · exact hkeys2 x hx'
      · exact fun x hx => hgrow x (List.mem_cons_of_mem _ hx)

theorem handleWebhook_nil (m : DedupeManager) (p : Payload) (now : Nat)
    (minA : ℚ) (price : Option ℚ) (oracle : WalletOracle)
    (h : normalizeLogs p = []) :
    handleWebhook m p now minA price oracle = (m, []) := by
  unfold handleWebhook
  rw [h]
  rfl

theorem handleWebhook_cons (m : DedupeManager) (p : Payload) (now : Nat)
    (minA : ℚ) (price : Option ℚ) (oracle : WalletOracle)
    (h : (normalizeLogs p).isEmpty = false) :
    handleWebhook m p now minA price oracle
    = ((processEvents m (decodeLogs (normalizeLogs p)) now).1,
       classifyBuys (processEvents m (decodeLogs (normalizeLogs p)) now).2
         minA price oracle) := by
  unfold handleWebhook
  rw [if_neg (by simp [h])]

/-- C7 amended: feeding the same payload twice from a fresh dedupe state
yields no alerts on the second pass, provided the payload decodes to no
removed (reorg) events and to at most the cache capacity of 2000 distinct
event keys; a removed log sharing its key with an earlier event of the
same payload, or more than 2000 distinct keys, can re-enable alerts on
the second pass. -/
theorem c7_amended_second_pass_empty (p : Payload) (now : Nat) (minA : ℚ)
    (price : Option ℚ) (oracle : WalletOracle)
    (hnr : ∀ e ∈ decodeLogs (normalizeLogs p), e.removed = false)
    (hcap : ((decodeLogs (normalizeLogs p)).map
        (fun e => makeKey e.transactionHash e.logIndex)).dedup.length ≤ 2000) :
    (handleWebhook (handleWebhook DedupeManager.new p now minA price oracle).1
      p now minA price oracle).2 = [] := by
  rcases hlogs : normalizeLogs p with _ | ⟨l, ls⟩
  · rw [handleWebhook_nil _ p now minA price oracle hlogs]
  · have hne : (normalizeLogs p).isEmpty = false := by rw [hlogs]; rfl
    rw [handleWebhook_cons _ p now minA price oracle hne,
        handleWebhook_cons _ p now minA price oracle hne]
    have hka : ∀ e ∈ decodeLogs (normalizeLogs p),
        makeKey e.transactionHash e.logIndex
          ∈ ((decodeLogs (normalizeLogs p)).map
              (fun e => makeKey e.transactionHash e.logIndex)).dedup :=
      fun e he => List.mem_dedup.mpr
        (List.mem_map_of_mem (fun e => makeKey e.transactionHash e.logIndex) he)
    obtain ⟨ks2, _, _, hstate, hkeys2, _⟩ := processEvents_marks now
      ((decodeLogs (normalizeLogs p)).map
        (fun e => makeKey e.transactionHash e.logIndex)).dedup hcap
      (decodeLogs (normalizeLogs p)) [] [] hnr hka List.nodup_nil
      (by intro x hx; exact absurd hx (List.not_mem_nil x))
    have hpe1 : (processEvents DedupeManager.new
        (decodeLogs (normalizeLogs p)) now).1
        = ⟨⟨2000, 7200000, ks2.map (fun x => (x, now))⟩⟩ := hstate
    rw [hpe1]
    have hdup2 : ∀ e ∈ decodeLogs (normalizeLogs p), e.removed = false ∧
        (⟨⟨2000, 7200000, ks2.map (fun x => (x, now))⟩⟩ :
          DedupeManager).isDuplicate e.transactionHash e.logIndex now = true :=
      fun e he => ⟨hnr e he,
        (ksState_isDuplicate now ks2 e.transactionHash e.logIndex).mpr
          (hkeys2 e he)⟩
    have hpe2 : processEvents
        (⟨⟨2000, 7200000, ks2.map (fun x => (x, now))⟩⟩ : DedupeManager)
        (decodeLogs (normalizeLogs p)) now
        = (⟨⟨2000, 7200000, ks2.map (fun x => (x, now))⟩⟩, []) :=
      foldl_dedupeStep_dup now _ (decodeLogs (normalizeLogs p)) [] hdup2
    rw [hpe2]
    rfl

unseal Rat.add Rat.mul Rat.inv in
/-- Counterexample to C7: the payload contains a qualifying buy and a
removed log with the same event key; the reorg eviction unmarks the key
at the end of the first pass, so the second pass emits the same alert
again instead of none. -/
theorem c7_counterexample :
    (handleWebhook DedupeManager.new c7Payload 0 1 none noneOracle).2.length
      = 1
    ∧ (handleWebhook
        (handleWebhook DedupeManager.new c7Payload 0 1 none noneOracle).1
        c7Payload 0 1 none noneOracle).2.length = 1 := by
  constructor
  · decide
  · decide

/-- Witness for C7 amended at a payload with the single qualifying buy
and no removed logs. -/
theorem c7_amended_second_pass_empty_witness :
    (∀ e ∈ decodeLogs (normalizeLogs
        { logs := some [c7LogA], txs := none, event := none }),
      e.removed = false)
    ∧ ((decodeLogs (normalizeLogs
        { logs := some [c7LogA], txs := none, event := none })).map
        (fun e => makeKey e.transactionHash e.logIndex)).dedup.length ≤ 2000
    ∧ (handleWebhook (handleWebhook DedupeManager.new
        { logs := some [c7LogA], txs := none, event := none }
        0 1 none noneOracle).1
        { logs := some [c7LogA], txs := none, event := none }
        0 1 none noneOracle).2 = [] :=
  ⟨by decide, by decide,
   c7_amended_second_pass_empty
     { logs := some [c7LogA], txs := none, event := none }
     0 1 none noneOracle (by decide) (by decide)⟩
